import Mathlib

/-!
Verification of the P2Pchat signaling server.

The repository contains three near-duplicate implementations of the same
connection-registry / matchmaker / signaling-relay core:

* `src/api/websocket.js` — the WebSocket handler (`users : Map`,
  `waitingUsers : Set`, handlers `handleUserJoin`, `handleFindMatch`,
  `findMatch`, `createMatch`, `handleSignalingMessage`,
  `handleUserDisconnect`, `handleDisconnection`, `broadcastUserCount`,
  `cleanupConnections`);  this file is embedded in namespace `WS`;
* `src/unnamed/part_000` — the standalone server; it differs from
  `websocket.js` only in the places embedded in namespace `Server`
  (its `findMatch` and `handleSignalingMessage` check
  `ws.readyState === OPEN`, and its user-count message carries a
  `waiting` field);
* `src/api/signaling.js` — the SSE variant; its relay
  (`handleSignalMessage`) and its disconnect procedure
  (`handleUserDisconnectInternal`) are embedded in namespace `SSE`.

JavaScript `Map` and `Set` preserve insertion order, so they are embedded
as association lists / lists without duplicates, with lookup returning the
first matching key.  Connection handles (`ws` objects / SSE response
objects) are opaque and embedded as `Nat`; `ws.send(...)` is embedded by
appending the pair (handle, message) to an `outbox` trace, and
`readyState === WebSocket.OPEN` by membership of the handle in an `openWs`
list.  JavaScript truthiness of the string/null fields that the source
tests with `if (x)` or `x || y` is embedded by `strTruthy` / `jsOr`
(`null`, `undefined` and `""` are falsy).
-/

namespace P2P

/-- JS `Map.get`: value of the first entry with the given key. -/
def mapGet {α β : Type} [DecidableEq α] (m : List (α × β)) (k : α) : Option β :=
  match m with
  | [] => none
  | (k', v) :: rest => if k' = k then some v else mapGet rest k

/-- JS `Map.set`: replace the value at the key in place, else append. -/
def mapSet {α β : Type} [DecidableEq α] (m : List (α × β)) (k : α) (v : β) :
    List (α × β) :=
  match m with
  | [] => [(k, v)]
  | (k', v') :: rest =>
    if k' = k then (k, v) :: rest else (k', v') :: mapSet rest k v

/-- JS `map.get(k).field = x` on a live object reference: update the value
at the key in place. -/
def mapUpdate {α β : Type} [DecidableEq α] (m : List (α × β)) (k : α)
    (f : β → β) : List (α × β) :=
  match m with
  | [] => []
  | (k', v) :: rest =>
    if k' = k then (k', f v) :: mapUpdate rest k f
    else (k', v) :: mapUpdate rest k f

/-- JS `Map.delete`. -/
def mapDelete {α β : Type} [DecidableEq α] (m : List (α × β)) (k : α) :
    List (α × β) :=
  match m with
  | [] => []
  | (k', v) :: rest =>
    if k' = k then mapDelete rest k else (k', v) :: mapDelete rest k

/-- JS `Set.add`: appends unless already a member. -/
def setAdd {α : Type} [DecidableEq α] (s : List α) (x : α) : List α :=
  if x ∈ s then s else s ++ [x]

/-- JS `Set.delete`. -/
def setDelete {α : Type} [DecidableEq α] (s : List α) (x : α) : List α :=
  match s with
  | [] => []
  | y :: rest => if y = x then setDelete rest x else y :: setDelete rest x

/-- JS truthiness of a string-or-nullish value: `null`, `undefined` and
`""` are falsy. -/
def strTruthy : Option String → Bool
  | none => false
  | some s => s ≠ ""

/-- JS `a || b` on string-or-nullish values. -/
def jsOr (a b : Option String) : Option String :=
  if strTruthy a then a else b

theorem mapGet_mapSet {α β : Type} [DecidableEq α] (m : List (α × β))
    (k k' : α) (v : β) :
    mapGet (mapSet m k v) k' = if k' = k then some v else mapGet m k' := by
  induction m with
  | nil =>
    by_cases h : k' = k <;> by_cases h' : k = k' <;> simp_all [mapSet, mapGet]
  | cons p rest ih =>
    obtain ⟨k₀, v₀⟩ := p
    by_cases h0 : k₀ = k <;> by_cases h1 : k' = k <;> by_cases h2 : k₀ = k' <;>
      simp_all [mapSet, mapGet]

theorem mapGet_mapUpdate {α β : Type} [DecidableEq α] (m : List (α × β))
    (k k' : α) (f : β → β) :
    mapGet (mapUpdate m k f) k' =
      if k' = k then (mapGet m k').map f else mapGet m k' := by
  induction m with
  | nil => by_cases h : k' = k <;> simp [mapUpdate, mapGet, h]
  | cons p rest ih =>
    obtain ⟨k₀, v₀⟩ := p
    by_cases h0 : k₀ = k <;> by_cases h1 : k' = k <;> by_cases h2 : k₀ = k' <;>
      simp_all [mapUpdate, mapGet]

theorem mapGet_mapDelete {α β : Type} [DecidableEq α] (m : List (α × β))
    (k k' : α) :
    mapGet (mapDelete m k) k' = if k' = k then none else mapGet m k' := by
  induction m with
  | nil => by_cases h : k' = k <;> simp [mapDelete, mapGet, h]
  | cons p rest ih =>
    obtain ⟨k₀, v₀⟩ := p
    by_cases h0 : k₀ = k <;> by_cases h1 : k' = k <;> by_cases h2 : k₀ = k' <;>
      simp_all [mapDelete, mapGet]

theorem mapGet_mem {α β : Type} [DecidableEq α] {m : List (α × β)} {k : α}
    {v : β} (h : mapGet m k = some v) : (k, v) ∈ m := by
  induction m with
  | nil => simp [mapGet] at h
  | cons p rest ih =>
    obtain ⟨k₀, v₀⟩ := p
    by_cases h0 : k₀ = k
    · subst h0
      simp [mapGet] at h
      simp [h]
    · simp [mapGet, h0] at h
      exact List.mem_cons_of_mem _ (ih h)

theorem mem_mapSet {α β : Type} [DecidableEq α] {m : List (α × β)} {k : α}
    {v : β} {e : α × β} (h : e ∈ mapSet m k v) : e = (k, v) ∨ e ∈ m := by
  induction m with
  | nil => simpa [mapSet] using h
  | cons p rest ih =>
    obtain ⟨k₀, v₀⟩ := p
    by_cases h0 : k₀ = k
    · subst h0
      simp [mapSet] at h
      rcases h with h | h
      · exact Or.inl h
      · exact Or.inr (List.mem_cons_of_mem _ h)
    · simp [mapSet, h0] at h
      rcases h with h | h
      · exact Or.inr (by simp [h])
      · rcases ih h with h' | h'
        · exact Or.inl h'
        · exact Or.inr (List.mem_cons_of_mem _ h')

theorem mem_mapUpdate {α β : Type} [DecidableEq α] {m : List (α × β)} {k : α}
    {f : β → β} {e : α × β} (h : e ∈ mapUpdate m k f) :
    ∃ e₀ ∈ m, e.1 = e₀.1 ∧ (e.2 = e₀.2 ∨ (e.2 = f e₀.2 ∧ e₀.1 = k)) := by
  induction m with
  | nil => simp [mapUpdate] at h
  | cons p rest ih =>
    obtain ⟨k₀, v₀⟩ := p
    by_cases h0 : k₀ = k
    · subst h0
      simp [mapUpdate] at h
      rcases h with h | h
      · exact ⟨(k₀, v₀), by simp, by simp [h]⟩
      · obtain ⟨e₀, he₀, hfst, hsnd⟩ := ih h
        exact ⟨e₀, List.mem_cons_of_mem _ he₀, hfst, hsnd⟩
    · simp [mapUpdate, h0] at h
      rcases h with h | h
      · exact ⟨(k₀, v₀), by simp, by simp [h]⟩
      · obtain ⟨e₀, he₀, hfst, hsnd⟩ := ih h
        exact ⟨e₀, List.mem_cons_of_mem _ he₀, hfst, hsnd⟩

theorem mem_mapDelete {α β : Type} [DecidableEq α] {m : List (α × β)} {k : α}
    {e : α × β} (h : e ∈ mapDelete m k) : e ∈ m ∧ e.1 ≠ k := by
  induction m with
  | nil => simp [mapDelete] at h
  | cons p rest ih =>
    obtain ⟨k₀, v₀⟩ := p
    by_cases h0 : k₀ = k
    · subst h0
      simp [mapDelete] at h
      obtain ⟨hm, hne⟩ := ih h
      exact ⟨List.mem_cons_of_mem _ hm, hne⟩
    · simp [mapDelete, h0] at h
      rcases h with h | h
      · subst h; exact ⟨by simp, h0⟩
      · obtain ⟨hm, hne⟩ := ih h
        exact ⟨List.mem_cons_of_mem _ hm, hne⟩

theorem mem_setAdd {α : Type} [DecidableEq α] {s : List α} {x y : α}
    (h : y ∈ setAdd s x) : y ∈ s ∨ y = x := by
  unfold setAdd at h
  split at h
  · exact Or.inl h
  · rcases List.mem_append.1 h with h' | h'
    · exact Or.inl h'
    · exact Or.inr (by simpa using h')

theorem mem_setDelete {α : Type} [DecidableEq α] {s : List α} {x y : α}
    (h : y ∈ setDelete s x) : y ∈ s ∧ y ≠ x := by
  induction s with
  | nil => simp [setDelete] at h
  | cons z rest ih =>
    by_cases h0 : z = x
    · subst h0
      simp [setDelete] at h
      obtain ⟨hm, hne⟩ := ih h
      exact ⟨List.mem_cons_of_mem _ hm, hne⟩
    · simp [setDelete, h0] at h
      rcases h with h | h
      · subst h; exact ⟨by simp, h0⟩
      · obtain ⟨hm, hne⟩ := ih h
        exact ⟨List.mem_cons_of_mem _ hm, hne⟩

theorem setDelete_idem {α : Type} [DecidableEq α] (s : List α) (x : α) :
    setDelete (setDelete s x) x = setDelete s x := by
  induction s with
  | nil => simp [setDelete]
  | cons z rest ih =>
    by_cases h0 : z = x
    · simp [setDelete, h0, ih]
    · simp [setDelete, h0, ih]

theorem mapUpdate_idem {α β : Type} [DecidableEq α] (m : List (α × β))
    (k : α) (f : β → β) (hf : ∀ v, f (f v) = f v) :
    mapUpdate (mapUpdate m k f) k f = mapUpdate m k f := by
  induction m with
  | nil => simp [mapUpdate]
  | cons p rest ih =>
    obtain ⟨k₀, v₀⟩ := p
    by_cases h0 : k₀ = k
    · simp [mapUpdate, h0, ih, hf]
    · simp [mapUpdate, h0, ih]

theorem mapUpdate_comm {α β : Type} [DecidableEq α] (m : List (α × β))
    (k k' : α) (f g : β → β) (h : k ≠ k') :
    mapUpdate (mapUpdate m k f) k' g = mapUpdate (mapUpdate m k' g) k f := by
  induction m with
  | nil => simp [mapUpdate]
  | cons p rest ih =>
    obtain ⟨k₀, v₀⟩ := p
    by_cases h0 : k₀ = k <;> by_cases h1 : k₀ = k' <;>
      simp_all [mapUpdate]

theorem keys_mapUpdate {α β : Type} [DecidableEq α] (m : List (α × β))
    (k : α) (f : β → β) :
    (mapUpdate m k f).map Prod.fst = m.map Prod.fst := by
  induction m with
  | nil => simp [mapUpdate]
  | cons p rest ih =>
    obtain ⟨k₀, v₀⟩ := p
    by_cases h0 : k₀ = k <;> simp [mapUpdate, h0, ih]

theorem keys_mapSet_of_some {α β : Type} [DecidableEq α] {m : List (α × β)}
    {k : α} {w : β} (v : β) (h : mapGet m k = some w) :
    (mapSet m k v).map Prod.fst = m.map Prod.fst := by
  induction m with
  | nil => simp [mapGet] at h
  | cons p rest ih =>
    obtain ⟨k₀, v₀⟩ := p
    by_cases h0 : k₀ = k
    · subst h0; simp [mapSet]
    · simp [mapGet, h0] at h
      simp [mapSet, h0, ih h]

theorem keys_mapSet_of_none {α β : Type} [DecidableEq α] {m : List (α × β)}
    {k : α} (v : β) (h : mapGet m k = none) :
    (mapSet m k v).map Prod.fst = m.map Prod.fst ++ [k] := by
  induction m with
  | nil => simp [mapSet]
  | cons p rest ih =>
    obtain ⟨k₀, v₀⟩ := p
    by_cases h0 : k₀ = k
    · subst h0; simp [mapGet] at h
    · simp [mapGet, h0] at h
      simp [mapSet, h0, ih h]

theorem mapGet_none_of_not_mem_keys {α β : Type} [DecidableEq α]
    {m : List (α × β)} {k : α} (h : k ∉ m.map Prod.fst) :
    mapGet m k = none := by
  induction m with
  | nil => simp [mapGet]
  | cons p rest ih =>
    obtain ⟨k₀, v₀⟩ := p
    have h1 : k₀ ≠ k := fun hh => h (by simp [hh])
    have h2 : k ∉ rest.map Prod.fst := fun hh => h (by simp [hh])
    simp [mapGet, h1, ih h2]

theorem not_mem_keys_of_mapGet_none {α β : Type} [DecidableEq α]
    {m : List (α × β)} {k : α} (h : mapGet m k = none) :
    k ∉ m.map Prod.fst := by
  induction m with
  | nil => simp
  | cons p rest ih =>
    obtain ⟨k₀, v₀⟩ := p
    by_cases h0 : k₀ = k
    · subst h0; simp [mapGet] at h
    · simp [mapGet, h0] at h
      simp [Ne.symm (Ne.intro h0), ih h]

theorem mapGet_of_mem_nodup {α β : Type} [DecidableEq α] {m : List (α × β)}
    {k : α} {v : β} (hnd : (m.map Prod.fst).Nodup) (h : (k, v) ∈ m) :
    mapGet m k = some v := by
  induction m with
  | nil => simp at h
  | cons p rest ih =>
    obtain ⟨k₀, v₀⟩ := p
    rw [List.map_cons, List.nodup_cons] at hnd
    rcases List.mem_cons.1 h with h' | h'
    · have hk : k₀ = k := (Prod.ext_iff.1 h'.symm).1
      have hv : v₀ = v := (Prod.ext_iff.1 h'.symm).2
      simp [mapGet, hk, hv]
    · have hk : k₀ ≠ k := by
        intro hh
        subst hh
        exact hnd.1 (List.mem_map.2 ⟨(k₀, v), h', rfl⟩)
      simp [mapGet, hk, ih hnd.2 h']

theorem sublist_mapDelete {α β : Type} [DecidableEq α] (m : List (α × β))
    (k : α) : (mapDelete m k).Sublist m := by
  induction m with
  | nil => simp [mapDelete]
  | cons p rest ih =>
    obtain ⟨k₀, v₀⟩ := p
    rw [mapDelete]
    by_cases h0 : k₀ = k
    · rw [if_pos h0]
      exact ih.cons _
    · rw [if_neg h0]
      exact ih.cons₂ _

/-- Session status, the string field `status` of a user record
(`'idle' | 'waiting' | 'matched'`). -/
inductive Status : Type
  | idle
  | waiting
  | matched
deriving DecidableEq, Repr

/-- One user record of the `users` map of `src/api/websocket.js`
(`{ ws, status, partnerId, lastSeen }`); `src/unnamed/part_000` adds an
informational `joinTime` that nothing reads, and `src/api/signaling.js`
stores an SSE `response` handle in place of `ws`. -/
structure Session : Type where
  ws : Nat
  status : Status
  partnerId : Option String
  lastSeen : Nat
deriving DecidableEq, Repr

/-- A server-originated message, as pushed onto one connection handle.
`userCount` carries its JSON payload fields explicitly because the three
implementations disagree on them; `forwarded` carries the relayed JSON
object as a field list. -/
inductive OutMsg : Type
  | joined (userId : String)
  | errorMsg (text : String)
  | waitingMsg
  | matchedMsg (partnerId : String) (isInitiator : Bool)
  | partnerDisconnected
  | userCount (fields : List (String × Nat))
  | forwarded (fields : List (String × String))
deriving DecidableEq, Repr

/-- The mutable server state shared by the handlers:
`users` and `waitingUsers` are the module-level `Map`/`Set`;
`wsUser` records the `ws.userId` property each join sets on its socket;
`openWs` is the set of handles whose `readyState === WebSocket.OPEN`;
`outbox` is the trace of every `send` performed, in order. -/
structure St : Type where
  users : List (String × Session)
  waitingUsers : List String
  wsUser : List (Nat × String)
  openWs : List Nat
  outbox : List (Nat × OutMsg)
deriving DecidableEq, Repr

/-- The state at process start: all containers empty. -/
def St.init : St := ⟨[], [], [], [], []⟩

/-- `handle.send(message)`: push one message onto a connection handle. -/
def sendTo (st : St) (w : Nat) (m : OutMsg) : St :=
  { st with outbox := st.outbox ++ [(w, m)] }

/-- `handle.close()`: the handle stops being open. -/
def closeWs (st : St) (w : Nat) : St :=
  { st with openWs := setDelete st.openWs w }

/-- `partner.partnerId = null; partner.status = 'idle'` — and the same
two assignments in every teardown path. -/
def resetSession (s : Session) : Session :=
  { s with status := Status.idle, partnerId := none }

namespace WS

/-- `src/api/websocket.js` `broadcastUserCount`, message
`{ type: 'user-count', count }` — the registered count only. -/
def userCountFields (st : St) : List (String × Nat) :=
  [("count", st.users.length)]

/-- `src/api/websocket.js` `broadcastUserCount`: sends the user-count
message to every registered session whose socket is open (the
`readyState === WebSocket.OPEN` test inside the `forEach`). -/
def broadcastUserCount (st : St) : St :=
  { st with
    outbox := st.outbox ++
      (st.users.filter (fun e => st.openWs.contains e.2.ws)).map
        (fun e => (e.2.ws, OutMsg.userCount (userCountFields st))) }

/-- The state mutations of `handleUserJoin` (lines 81-101): supersede an
existing session for the id (close its socket if it is a different one,
drop the id from the waiting set), install the fresh
`{ ws, status: 'idle', partnerId: null, lastSeen: now }` record, and set
`ws.userId = userId`. -/
def registerUser (st : St) (ws : Nat) (userId : String) (now : Nat) : St :=
  let st1 : St :=
    match mapGet st.users userId with
    | some existing =>
      let sA := if existing.ws ≠ ws then closeWs st existing.ws else st
      { sA with waitingUsers := setDelete sA.waitingUsers userId }
    | none => st
  let st2 : St := { st1 with users := mapSet st1.users userId ⟨ws, Status.idle, none, now⟩ }
  { st2 with wsUser := mapSet st2.wsUser ws userId }

/-- `src/api/websocket.js` `handleUserJoin`: register, broadcast the user
count, reply `joined`. -/
def handleUserJoin (st : St) (ws : Nat) (userId : String) (now : Nat) : St :=
  sendTo (broadcastUserCount (registerUser st ws userId now)) ws
    (OutMsg.joined userId)

/-- The partner-notification block of `handleUserDisconnect`
(lines 230-247): `if (partnerId || user.partnerId)`, look the partner up,
reset it to idle/no-partner and push `partner-disconnected`.  `pid` is
the already-computed `partnerId || user.partnerId`. -/
def notifyPartner (st : St) (pid : Option String) : St :=
  match pid with
  | none => st
  | some p =>
    if p = "" then st
    else
      match mapGet st.users p with
      | none => st
      | some partner =>
        sendTo { st with users := mapUpdate st.users p resetSession }
          partner.ws OutMsg.partnerDisconnected

/-- `src/api/websocket.js` `handleUserDisconnect` (lines 223-255): the
partial teardown run for an inbound `disconnect` message
`{ userId, partnerId }`.  Missing session: no-op.  Notifies the session
named by `partnerId || user.partnerId` (message field first), then resets
the user to idle and removes it from the waiting set. -/
def handleUserDisconnect (st : St) (_ws : Nat) (userId : String)
    (msgPartnerId : Option String) : St :=
  match mapGet st.users userId with
  | none => st
  | some user =>
    let st1 := notifyPartner st (jsOr msgPartnerId user.partnerId)
    let st2 := { st1 with users := mapUpdate st1.users userId resetSession }
    { st2 with waitingUsers := setDelete st2.waitingUsers userId }

/-- `src/api/websocket.js` `findMatch` (lines 143-154): first member of
the waiting set other than the requester whose session exists with status
`'waiting'`.  NOTE: unlike `src/unnamed/part_000`, this version performs
no `readyState` liveness check on the candidate. -/
def findMatch (st : St) (userId : String) : Option String :=
  st.waitingUsers.find? (fun w =>
    w ≠ userId &&
      match mapGet st.users w with
      | some u => u.status = Status.waiting
      | none => false)

/-- `user1.status = 'matched'; user1.partnerId = userId2`. -/
def matchWith (partnerId : String) (s : Session) : Session :=
  { s with status := Status.matched, partnerId := some partnerId }

/-- `src/api/websocket.js` `createMatch` (lines 156-192): if either
session is missing, abort; otherwise dequeue both ids, point the sessions
at each other with status `'matched'`, and send both `matched` messages,
`userId1` getting `isInitiator = coin` (the `Math.random() < 0.5` draw)
and `userId2` the complement. -/
def createMatch (st : St) (userId1 userId2 : String) (coin : Bool) : St :=
  match mapGet st.users userId1, mapGet st.users userId2 with
  | some u1, some u2 =>
    let stA := { st with
      waitingUsers := setDelete (setDelete st.waitingUsers userId1) userId2 }
    let stB := { stA with users := mapUpdate stA.users userId1 (matchWith userId2) }
    let stC := { stB with users := mapUpdate stB.users userId2 (matchWith userId1) }
    sendTo (sendTo stC u1.ws (OutMsg.matchedMsg userId2 coin)) u2.ws
      (OutMsg.matchedMsg userId1 (!coin))
  | some _, none => st
  | none, some _ => st
  | none, none => st

/-- The block `if (user.partnerId) { handleUserDisconnect(ws, { userId,
partnerId: user.partnerId }); }` shared verbatim by `handleFindMatch` and
`handleDisconnection`. -/
def maybeDisconnectPartner (st : St) (ws : Nat) (userId : String)
    (user : Session) : St :=
  if strTruthy user.partnerId then
    handleUserDisconnect st ws userId user.partnerId
  else st

/-- `src/api/websocket.js` `handleFindMatch` (lines 113-141): unknown
user replies `error`; a user holding a partner first runs the disconnect
procedure against it; the user is then marked waiting and enqueued, the
pool is scanned, and either a match is created or `waiting` is sent. -/
def handleFindMatch (st : St) (ws : Nat) (userId : String) (coin : Bool) : St :=
  match mapGet st.users userId with
  | none => sendTo st ws (OutMsg.errorMsg "User not found")
  | some user =>
    let st1 := maybeDisconnectPartner st ws userId user
    let st2 := { st1 with
      users := mapUpdate st1.users userId (fun u => { u with status := Status.waiting }) }
    let st3 := { st2 with waitingUsers := setAdd st2.waitingUsers userId }
    match findMatch st3 userId with
    | some m => createMatch st3 userId m coin
    | none => sendTo st3 ws OutMsg.waitingMsg

/-- `{ ...message, from: ws.userId }` as JSON-serialized: the payload with
its `from` field set to the sender's id; when the socket has no `userId`
(never joined) the property is `undefined` and `JSON.stringify` omits it. -/
def wsForward (payload : List (String × String)) (fromId : Option String) :
    List (String × String) :=
  match fromId with
  | some f => mapSet payload "from" f
  | none => mapDelete payload "from"

/-- `src/api/websocket.js` `handleSignalingMessage` (lines 194-221):
look up `message.to` in the registry — with no liveness check; unknown
target replies `error` to the sender, otherwise the payload is forwarded
with `from` attached.  (The `try`/`catch` around `send` is embedded as an
always-succeeding append to the outbox trace.) -/
def handleSignalingMessage (st : St) (ws : Nat)
    (payload : List (String × String)) : St :=
  match (match mapGet payload "to" with
         | some t => mapGet st.users t
         | none => none) with
  | none => sendTo st ws (OutMsg.errorMsg "Target user not found")
  | some target =>
    sendTo st target.ws (OutMsg.forwarded (wsForward payload (mapGet st.wsUser ws)))

/-- `src/api/websocket.js` `handleDisconnection` (lines 257-276): full
teardown on socket close.  A socket without `userId`, or an id with no
session, is a no-op; otherwise the partner (if any) is notified via
`handleUserDisconnect`, the session is removed from registry and waiting
set, and the user count is broadcast. -/
def handleDisconnection (st : St) (ws : Nat) : St :=
  match mapGet st.wsUser ws with
  | none => st
  | some userId =>
    match mapGet st.users userId with
    | none => st
    | some user =>
      let st1 := maybeDisconnectPartner st ws userId user
      let st2 := { st1 with
        users := mapDelete st1.users userId,
        waitingUsers := setDelete st1.waitingUsers userId }
      broadcastUserCount st2

/-- The `lastSeen` refresh inside `cleanupConnections`: every user whose
socket is open gets `user.lastSeen = now`. -/
def touchAll (m : List (String × Session)) (ows : List Nat) (now : Nat) :
    List (String × Session) :=
  m.map (fun e =>
    if e.2.ws ∈ ows then (e.1, { e.2 with lastSeen := now }) else e)

/-- `src/api/websocket.js` `cleanupConnections` (lines 296-333): collect
the users whose socket is not open, refresh `lastSeen` on the open ones,
run `handleDisconnection` for each collected user's current socket, and
broadcast the user count if anything was cleaned.  (The `ping()` of open
sockets is embedded as succeeding; its `catch` arm never fires.) -/
def cleanupConnections (st : St) (now : Nat) : St :=
  let disconnected :=
    (st.users.filter (fun e => !(st.openWs.contains e.2.ws))).map Prod.fst
  let st1 := { st with users := touchAll st.users st.openWs now }
  let st2 := disconnected.foldl
    (fun s uid =>
      match mapGet s.users uid with
      | some u => handleDisconnection s u.ws
      | none => s) st1
  if disconnected.isEmpty then st2 else broadcastUserCount st2

/-- One client-observable event of the WebSocket server: a transport
connection opening (`wss.on('connection')`), one of the four message
handlers, the transport `close` event, the periodic liveness sweep —
plus `drop`, a socket dying at transport level (its `readyState` leaves
`OPEN`) before its `close` event has been dispatched, the situation the
source's `readyState` checks and `cleanupConnections` exist to handle. -/
inductive Op : Type
  | connect (ws : Nat)
  | join (ws : Nat) (userId : String) (now : Nat)
  | findMatchReq (ws : Nat) (userId : String) (coin : Bool)
  | signal (ws : Nat) (payload : List (String × String))
  | disconnectMsg (ws : Nat) (userId : String) (partnerId : Option String)
  | close (ws : Nat)
  | drop (ws : Nat)
  | cleanup (now : Nat)
deriving DecidableEq, Repr

/-- Dispatch of one event, following `handleMessage` and the `wss.on`
callbacks. -/
def step (st : St) : Op → St
  | Op.connect w => broadcastUserCount { st with openWs := setAdd st.openWs w }
  | Op.join w uid now => handleUserJoin st w uid now
  | Op.findMatchReq w uid coin => handleFindMatch st w uid coin
  | Op.signal w payload => handleSignalingMessage st w payload
  | Op.disconnectMsg w uid mp => handleUserDisconnect st w uid mp
  | Op.close w => handleDisconnection { st with openWs := setDelete st.openWs w } w
  | Op.drop w => { st with openWs := setDelete st.openWs w }
  | Op.cleanup now => cleanupConnections st now

/-- The server state after a sequence of events from process start. -/
def run (ops : List Op) : St :=
  ops.foldl step St.init

end WS

namespace Server

/-- `src/unnamed/part_000` `safeWSend` (lines 89-97): send only when the
socket's `readyState` is `OPEN`. -/
def safeWSend (st : St) (w : Nat) (m : OutMsg) : St :=
  if w ∈ st.openWs then sendTo st w m else st

/-- `src/unnamed/part_000` `findMatch` (lines 199-209): like the
`websocket.js` scan but the candidate's socket must additionally satisfy
`ws.readyState === WebSocket.OPEN`. -/
def findMatch (st : St) (userId : String) : Option String :=
  st.waitingUsers.find? (fun w =>
    w ≠ userId &&
      match mapGet st.users w with
      | some u => u.status = Status.waiting && st.openWs.contains u.ws
      | none => false)

/-- `src/unnamed/part_000` `handleSignalingMessage` (lines 249-275): a
falsy `to` is a missing-field error; a target that is absent **or whose
socket is not open** is a not-found error; otherwise the payload plus
`from` is forwarded.  All sends go through `safeWSend`. -/
def handleSignalingMessage (st : St) (ws : Nat)
    (payload : List (String × String)) : St :=
  match mapGet payload "to" with
  | none => safeWSend st ws (OutMsg.errorMsg "Target user ID required")
  | some t =>
    if t = "" then safeWSend st ws (OutMsg.errorMsg "Target user ID required")
    else
      match mapGet st.users t with
      | none => safeWSend st ws (OutMsg.errorMsg "Target user not found or not connected")
      | some target =>
        if target.ws ∈ st.openWs then
          safeWSend st target.ws
            (OutMsg.forwarded (WS.wsForward payload (mapGet st.wsUser ws)))
        else
          safeWSend st ws (OutMsg.errorMsg "Target user not found or not connected")

/-- `src/unnamed/part_000` `broadcastUserCount` (lines 331-343), message
`{ type: 'user-count', count, waiting }` — both counts. -/
def userCountFields (st : St) : List (String × Nat) :=
  [("count", st.users.length), ("waiting", st.waitingUsers.length)]

end Server

namespace SSE

/-- `src/api/signaling.js` `sendUserCount` (lines 123-130), SSE data
`{ count, waiting: storage.waiting.size }` — both counts. -/
def userCountFields (st : St) : List (String × Nat) :=
  [("count", st.users.length), ("waiting", st.waitingUsers.length)]

/-- The field names the SSE relay forwards. -/
def signalFieldNames : List String :=
  ["from", "type", "offer", "answer", "candidate"]

/-- The JSON object `{ from, type, offer, answer, candidate }` built by
`src/api/signaling.js` `handleSignalMessage` (lines 217-223) from the
destructured client payload, as serialized (`JSON.stringify` omits the
properties whose destructured value is `undefined`).  Every other payload
field — and in particular anything outside this fixed list — is dropped,
and `from` is the client-supplied field, not the server-side identity. -/
def sseForward (data : List (String × String)) : List (String × String) :=
  signalFieldNames.filterMap (fun n => (mapGet data n).map (fun v => (n, v)))

/-- `src/api/signaling.js` `handleSignalMessage` (lines 207-227): look up
`data.to` (presence only, no liveness notion exists for SSE responses);
on success push the rebuilt fixed-field object to the target.  The
HTTP-response error/acknowledgement bodies are outside the embedded
state. -/
def handleSignalMessage (st : St) (data : List (String × String)) : St :=
  match (match mapGet data "to" with
         | some t => mapGet st.users t
         | none => none) with
  | none => st
  | some target => sendTo st target.ws (OutMsg.forwarded (sseForward data))

/-- `src/api/signaling.js` `sendUserCount` pushes to every stored user
(`sendToUser` checks only that the stored `response` handle exists). -/
def sendUserCount (st : St) : St :=
  { st with
    outbox := st.outbox ++
      st.users.map (fun e => (e.2.ws, OutMsg.userCount (userCountFields st))) }

/-- `src/api/signaling.js` `handleUserDisconnectInternal` (lines 235-258):
the partial teardown.  Missing session: no-op.  Notifies and resets the
recorded partner (the SSE variant has no message-supplied partner id),
resets the user, dequeues it, and sends the user count. -/
def handleUserDisconnectInternal (st : St) (userId : String) : St :=
  match mapGet st.users userId with
  | none => st
  | some user =>
    let st1 := WS.notifyPartner st user.partnerId
    let st2 := { st1 with users := mapUpdate st1.users userId resetSession }
    sendUserCount { st2 with waitingUsers := setDelete st2.waitingUsers userId }

end SSE

/-- Decides the symmetry clause of the registry invariant on a concrete
state: every registered session holding a `partnerId` whose session is
also registered must find it `'matched'` and pointing back. -/
def symCheck (st : St) : Bool :=
  st.users.all (fun e =>
    match e.2.partnerId with
    | none => true
    | some p =>
      match mapGet st.users p with
      | none => true
      | some sp => sp.status = Status.matched && sp.partnerId = some e.1)

/-- Decides "every id in the waiting set has a registered session with
status `'waiting'`" on a concrete state. -/
def poolWaitingCheck (st : St) : Bool :=
  st.waitingUsers.all (fun id =>
    match mapGet st.users id with
    | some s => s.status = Status.waiting
    | none => false)

/-- Per-session half of the registry invariant: `status == 'matched'`
exactly when `partnerId` is set, and a set `partnerId` is never the
(JS-falsy) empty string. -/
def SessionOK (s : Session) : Prop :=
  (s.status = Status.matched ↔ s.partnerId ≠ none) ∧
    ∀ p, s.partnerId = some p → p ≠ ""

/-- Every registered session has a non-empty key and satisfies
`SessionOK`. -/
def UsersOK (st : St) : Prop :=
  ∀ e ∈ st.users, e.1 ≠ "" ∧ SessionOK e.2

/-- The registry never holds two entries for one id (a JS `Map`). -/
def NodupKeys (st : St) : Prop :=
  (st.users.map Prod.fst).Nodup

/-- Every waiting id has a registered session that is not matched. -/
def PoolOK (st : St) : Prop :=
  ∀ id ∈ st.waitingUsers,
    ∃ s, mapGet st.users id = some s ∧ s.status ≠ Status.matched

theorem users_sendTo (st : St) (w : Nat) (m : OutMsg) :
    (sendTo st w m).users = st.users := rfl

theorem pool_sendTo (st : St) (w : Nat) (m : OutMsg) :
    (sendTo st w m).waitingUsers = st.waitingUsers := rfl

theorem users_broadcast (st : St) :
    (WS.broadcastUserCount st).users = st.users := rfl

theorem pool_broadcast (st : St) :
    (WS.broadcastUserCount st).waitingUsers = st.waitingUsers := rfl

theorem SessionOK_reset (s : Session) : SessionOK (resetSession s) := by
  constructor
  · simp [resetSession]
  · simp [resetSession]

theorem resetSession_idem (s : Session) :
    resetSession (resetSession s) = resetSession s := rfl

theorem SessionOK_matchWith (s : Session) (p : String) (hp : p ≠ "") :
    SessionOK (WS.matchWith p s) := by
  constructor
  · simp [WS.matchWith]
  · simp [WS.matchWith]
    exact hp

theorem SessionOK_partnerId_none {s : Session} (h : SessionOK s)
    (ht : strTruthy s.partnerId = false) : s.partnerId = none := by
  cases hp : s.partnerId with
  | none => rfl
  | some p =>
    rw [hp] at ht
    simp [strTruthy] at ht
    exact absurd ht (h.2 p hp)

theorem strTruthy_some_iff (p : String) : strTruthy (some p) = true ↔ p ≠ "" := by
  simp [strTruthy]

theorem exists_of_strTruthy {o : Option String} (h : strTruthy o = true) :
    ∃ p, o = some p ∧ p ≠ "" := by
  cases o with
  | none => simp [strTruthy] at h
  | some p => exact ⟨p, rfl, by simpa [strTruthy] using h⟩

theorem users_notifyPartner (st : St) (pid : Option String) :
    (WS.notifyPartner st pid).users = st.users ∨
      (WS.notifyPartner st pid).users = mapUpdate st.users (pid.getD "") resetSession := by
  unfold WS.notifyPartner
  cases pid with
  | none => exact Or.inl rfl
  | some p =>
    by_cases hp : p = ""
    · simp [hp]
    · simp only [hp, if_false]
      cases mapGet st.users p with
      | none => exact Or.inl rfl
      | some partner => exact Or.inr rfl

theorem pool_notifyPartner (st : St) (pid : Option String) :
    (WS.notifyPartner st pid).waitingUsers = st.waitingUsers := by
  unfold WS.notifyPartner
  cases pid with
  | none => rfl
  | some p =>
    by_cases hp : p = ""
    · simp [hp]
    · simp only [hp, if_false]
      cases mapGet st.users p with
      | none => rfl
      | some partner => rfl

theorem wsUser_notifyPartner (st : St) (pid : Option String) :
    (WS.notifyPartner st pid).wsUser = st.wsUser := by
  unfold WS.notifyPartner
  cases pid with
  | none => rfl
  | some p =>
    by_cases hp : p = ""
    · simp [hp]
    · simp only [hp, if_false]
      cases mapGet st.users p with
      | none => rfl
      | some partner => rfl

theorem UsersOK_notifyPartner {st : St} (pid : Option String)
    (h : UsersOK st) : UsersOK (WS.notifyPartner st pid) := by
  intro e he
  rcases users_notifyPartner st pid with hu | hu
  · exact h e (hu ▸ he)
  · rw [hu] at he
    obtain ⟨e₀, he₀, hfst, hsnd⟩ := mem_mapUpdate he
    obtain ⟨hk, hok⟩ := h e₀ he₀
    refine ⟨hfst ▸ hk, ?_⟩
    rcases hsnd with hs | hs
    · exact hs ▸ hok
    · exact hs.1 ▸ SessionOK_reset e₀.2

theorem NodupKeys_notifyPartner {st : St} (pid : Option String)
    (h : NodupKeys st) : NodupKeys (WS.notifyPartner st pid) := by
  unfold NodupKeys
  rcases users_notifyPartner st pid with hu | hu
  · rwa [hu]
  · rwa [hu, keys_mapUpdate]

theorem PoolOK_notifyPartner {st : St} (pid : Option String)
    (h : PoolOK st) : PoolOK (WS.notifyPartner st pid) := by
  intro id hid
  rw [pool_notifyPartner] at hid
  obtain ⟨s, hs, hstat⟩ := h id hid
  rcases users_notifyPartner st pid with hu | hu
  · exact ⟨s, hu ▸ hs, hstat⟩
  · rw [hu, mapGet_mapUpdate]
    by_cases hip : id = pid.getD ""
    · refine ⟨resetSession s, ?_, by simp [resetSession]⟩
      rw [if_pos hip, hs]
      rfl
    · rw [if_neg hip]
      exact ⟨s, hs, hstat⟩

theorem mapGet_users_notifyPartner_map (st : St) (pid : Option String)
    (k : String) :
    mapGet (WS.notifyPartner st pid).users k = mapGet st.users k ∨
      mapGet (WS.notifyPartner st pid).users k =
        (mapGet st.users k).map resetSession := by
  rcases users_notifyPartner st pid with hu | hu
  · exact Or.inl (by rw [hu])
  · rw [hu, mapGet_mapUpdate]
    by_cases hk : k = pid.getD ""
    · exact Or.inr (by rw [if_pos hk])
    · exact Or.inl (by rw [if_neg hk])

theorem openWs_notifyPartner (st : St) (pid : Option String) :
    (WS.notifyPartner st pid).openWs = st.openWs := by
  unfold WS.notifyPartner
  cases pid with
  | none => rfl
  | some p =>
    by_cases hp : p = ""
    · simp [hp]
    · simp only [hp, if_false]
      cases mapGet st.users p with
      | none => rfl
      | some partner => rfl

theorem mapGet_hUD_self (st : St) (ws : Nat) (uid : String)
    (mp : Option String) :
    mapGet (WS.handleUserDisconnect st ws uid mp).users uid =
      (mapGet st.users uid).map resetSession := by
  cases hu : mapGet st.users uid with
  | none => simp only [WS.handleUserDisconnect, hu]; rfl
  | some user =>
    simp only [WS.handleUserDisconnect, hu]
    rw [mapGet_mapUpdate, if_pos rfl]
    rcases mapGet_users_notifyPartner_map st (jsOr mp user.partnerId) uid with hnp | hnp
    · rw [hnp, hu]
    · rw [hnp, hu]
      simp [resetSession_idem]

theorem pool_hUD (st : St) (ws : Nat) (uid : String) (mp : Option String) :
    (WS.handleUserDisconnect st ws uid mp).waitingUsers = st.waitingUsers ∨
      (WS.handleUserDisconnect st ws uid mp).waitingUsers =
        setDelete st.waitingUsers uid := by
  cases hu : mapGet st.users uid with
  | none => simp only [WS.handleUserDisconnect, hu]; exact Or.inl trivial
  | some user =>
    simp only [WS.handleUserDisconnect, hu]
    exact Or.inr (by rw [pool_notifyPartner])

theorem wsUser_hUD (st : St) (ws : Nat) (uid : String) (mp : Option String) :
    (WS.handleUserDisconnect st ws uid mp).wsUser = st.wsUser := by
  cases hu : mapGet st.users uid with
  | none => simp only [WS.handleUserDisconnect, hu]
  | some user =>
    simp only [WS.handleUserDisconnect, hu]
    exact wsUser_notifyPartner st _

theorem openWs_hUD (st : St) (ws : Nat) (uid : String) (mp : Option String) :
    (WS.handleUserDisconnect st ws uid mp).openWs = st.openWs := by
  cases hu : mapGet st.users uid with
  | none => simp only [WS.handleUserDisconnect, hu]
  | some user =>
    simp only [WS.handleUserDisconnect, hu]
    exact openWs_notifyPartner st _

theorem UsersOK_hUD {st : St} (ws : Nat) (uid : String) (mp : Option String)
    (h : UsersOK st) : UsersOK (WS.handleUserDisconnect st ws uid mp) := by
  cases hu : mapGet st.users uid with
  | none => simp only [WS.handleUserDisconnect, hu]; exact h
  | some user =>
    simp only [WS.handleUserDisconnect, hu]
    intro e he
    obtain ⟨e₀, he₀, hfst, hsnd⟩ := mem_mapUpdate he
    obtain ⟨hk, hok⟩ := UsersOK_notifyPartner _ h e₀ he₀
    refine ⟨hfst ▸ hk, ?_⟩
    rcases hsnd with hs | hs
    · exact hs ▸ hok
    · exact hs.1 ▸ SessionOK_reset e₀.2

theorem NodupKeys_hUD {st : St} (ws : Nat) (uid : String) (mp : Option String)
    (h : NodupKeys st) : NodupKeys (WS.handleUserDisconnect st ws uid mp) := by
  cases hu : mapGet st.users uid with
  | none => simp only [WS.handleUserDisconnect, hu]; exact h
  | some user =>
    simp only [WS.handleUserDisconnect, hu]
    unfold NodupKeys
    rw [keys_mapUpdate]
    exact NodupKeys_notifyPartner _ h

theorem PoolOK_hUD {st : St} (ws : Nat) (uid : String) (mp : Option String)
    (h : PoolOK st) : PoolOK (WS.handleUserDisconnect st ws uid mp) := by
  cases hu : mapGet st.users uid with
  | none => simp only [WS.handleUserDisconnect, hu]; exact h
  | some user =>
    simp only [WS.handleUserDisconnect, hu]
    intro id hid
    obtain ⟨hid', hne⟩ := mem_setDelete hid
    obtain ⟨s, hs, hstat⟩ := PoolOK_notifyPartner _ h id hid'
    refine ⟨s, ?_, hstat⟩
    rw [mapGet_mapUpdate, if_neg hne]
    exact hs

theorem UsersOK_createMatch {st : St} (a b : String) (coin : Bool)
    (h : UsersOK st) : UsersOK (WS.createMatch st a b coin) := by
  cases ha : mapGet st.users a with
  | none =>
    cases hb : mapGet st.users b with
    | none => simp only [WS.createMatch, ha, hb]; exact h
    | some u2 => simp only [WS.createMatch, ha, hb]; exact h
  | some u1 =>
    cases hb : mapGet st.users b with
    | none => simp only [WS.createMatch, ha, hb]; exact h
    | some u2 =>
      have hka := (h _ (mapGet_mem ha)).1
      have hkb := (h _ (mapGet_mem hb)).1
      simp only [WS.createMatch, ha, hb]
      intro e he
      obtain ⟨e₁, he₁, hf1, hs1⟩ := mem_mapUpdate he
      obtain ⟨e₀, he₀, hf0, hs0⟩ := mem_mapUpdate he₁
      obtain ⟨hk, hok⟩ := h e₀ he₀
      refine ⟨by rw [hf1, hf0]; exact hk, ?_⟩
      rcases hs1 with hs1 | hs1
      · rcases hs0 with hs0 | hs0
        · rw [hs1, hs0]; exact hok
        · rw [hs1, hs0.1]; exact SessionOK_matchWith _ _ hkb
      · rw [hs1.1]; exact SessionOK_matchWith _ _ hka

theorem NodupKeys_createMatch {st : St} (a b : String) (coin : Bool)
    (h : NodupKeys st) : NodupKeys (WS.createMatch st a b coin) := by
  cases ha : mapGet st.users a with
  | none =>
    cases hb : mapGet st.users b with
    | none => simp only [WS.createMatch, ha, hb]; exact h
    | some u2 => simp only [WS.createMatch, ha, hb]; exact h
  | some u1 =>
    cases hb : mapGet st.users b with
    | none => simp only [WS.createMatch, ha, hb]; exact h
    | some u2 =>
      simp only [WS.createMatch, ha, hb]
      show (List.map Prod.fst
        (mapUpdate (mapUpdate st.users a (WS.matchWith b)) b (WS.matchWith a))).Nodup
      rw [keys_mapUpdate, keys_mapUpdate]
      exact h

theorem PoolOK_createMatch {st : St} (a b : String) (coin : Bool)
    (h : PoolOK st) : PoolOK (WS.createMatch st a b coin) := by
  cases ha : mapGet st.users a with
  | none =>
    cases hb : mapGet st.users b with
    | none => simp only [WS.createMatch, ha, hb]; exact h
    | some u2 => simp only [WS.createMatch, ha, hb]; exact h
  | some u1 =>
    cases hb : mapGet st.users b with
    | none => simp only [WS.createMatch, ha, hb]; exact h
    | some u2 =>
      simp only [WS.createMatch, ha, hb]
      intro id hid
      obtain ⟨hidb, hneb⟩ := mem_setDelete hid
      obtain ⟨hida, hnea⟩ := mem_setDelete hidb
      obtain ⟨s, hs, hstat⟩ := h id hida
      refine ⟨s, ?_, hstat⟩
      show mapGet (mapUpdate (mapUpdate st.users a (WS.matchWith b)) b
        (WS.matchWith a)) id = some s
      rw [mapGet_mapUpdate, if_neg hneb, mapGet_mapUpdate, if_neg hnea]
      exact hs

theorem UsersOK_matchOrWait {st : St} (ws : Nat) (uid : String) (coin : Bool)
    (h : UsersOK st) :
    UsersOK (match WS.findMatch st uid with
      | some m => WS.createMatch st uid m coin
      | none => sendTo st ws OutMsg.waitingMsg) := by
  cases hm : WS.findMatch st uid with
  | some m => exact UsersOK_createMatch uid m coin h
  | none => exact h

theorem NodupKeys_matchOrWait {st : St} (ws : Nat) (uid : String)
    (coin : Bool) (h : NodupKeys st) :
    NodupKeys (match WS.findMatch st uid with
      | some m => WS.createMatch st uid m coin
      | none => sendTo st ws OutMsg.waitingMsg) := by
  cases hm : WS.findMatch st uid with
  | some m => exact NodupKeys_createMatch uid m coin h
  | none => exact h

theorem PoolOK_matchOrWait {st : St} (ws : Nat) (uid : String) (coin : Bool)
    (h : PoolOK st) :
    PoolOK (match WS.findMatch st uid with
      | some m => WS.createMatch st uid m coin
      | none => sendTo st ws OutMsg.waitingMsg) := by
  cases hm : WS.findMatch st uid with
  | some m => exact PoolOK_createMatch uid m coin h
  | none => exact h

theorem UsersOK_enqueue {st : St} (uid : String) {u₁ : Session}
    (hnd : NodupKeys st) (hlook : mapGet st.users uid = some u₁)
    (hpn : u₁.partnerId = none) (h : UsersOK st) :
    UsersOK { st with
      users := mapUpdate st.users uid (fun u => { u with status := Status.waiting }),
      waitingUsers := setAdd st.waitingUsers uid } := by
  intro e he
  obtain ⟨e₀, he₀, hfst, hsnd⟩ := mem_mapUpdate he
  obtain ⟨hk, hok⟩ := h e₀ he₀
  refine ⟨hfst ▸ hk, ?_⟩
  rcases hsnd with hs | hs
  · rw [hs]; exact hok
  · have hmem : (uid, e₀.2) ∈ st.users := by
      rw [← hs.2]; exact he₀
    have heq : e₀.2 = u₁ := by
      have := mapGet_of_mem_nodup hnd hmem
      rw [hlook] at this
      exact (Option.some.inj this).symm
    rw [hs.1, heq]
    constructor
    · simp [hpn]
    · simp [hpn]

theorem PoolOK_enqueue {st : St} (uid : String) {u₁ : Session}
    (hlook : mapGet st.users uid = some u₁) (h : PoolOK st) :
    PoolOK { st with
      users := mapUpdate st.users uid (fun u => { u with status := Status.waiting }),
      waitingUsers := setAdd st.waitingUsers uid } := by
  intro id hid
  by_cases hiu : id = uid
  · subst hiu
    refine ⟨{ u₁ with status := Status.waiting }, ?_, by simp⟩
    rw [mapGet_mapUpdate, if_pos rfl, hlook]
    rfl
  · rcases mem_setAdd hid with hid' | hid'
    · obtain ⟨s, hs, hstat⟩ := h id hid'
      refine ⟨s, ?_, hstat⟩
      rw [mapGet_mapUpdate, if_neg hiu]
      exact hs
    · exact absurd hid' hiu

theorem NodupKeys_enqueue {st : St} (uid : String) (h : NodupKeys st) :
    NodupKeys { st with
      users := mapUpdate st.users uid (fun u => { u with status := Status.waiting }),
      waitingUsers := setAdd st.waitingUsers uid } := by
  unfold NodupKeys
  rw [keys_mapUpdate]
  exact h

theorem UsersOK_maybeDP {st : St} (ws : Nat) (uid : String) (user : Session)
    (h : UsersOK st) : UsersOK (WS.maybeDisconnectPartner st ws uid user) := by
  unfold WS.maybeDisconnectPartner
  split
  · exact UsersOK_hUD ws uid user.partnerId h
  · exact h

theorem NodupKeys_maybeDP {st : St} (ws : Nat) (uid : String) (user : Session)
    (h : NodupKeys st) : NodupKeys (WS.maybeDisconnectPartner st ws uid user) := by
  unfold WS.maybeDisconnectPartner
  split
  · exact NodupKeys_hUD ws uid user.partnerId h
  · exact h

theorem PoolOK_maybeDP {st : St} (ws : Nat) (uid : String) (user : Session)
    (h : PoolOK st) : PoolOK (WS.maybeDisconnectPartner st ws uid user) := by
  unfold WS.maybeDisconnectPartner
  split
  · exact PoolOK_hUD ws uid user.partnerId h
  · exact h

theorem mapGet_maybeDP_self {st : St} (ws : Nat) (uid : String)
    {user : Session} (hu : mapGet st.users uid = some user) :
    ∃ u₁, mapGet (WS.maybeDisconnectPartner st ws uid user).users uid = some u₁ ∧
      (SessionOK user → u₁.partnerId = none) := by
  unfold WS.maybeDisconnectPartner
  split
  · next _ =>
    refine ⟨resetSession user, ?_, fun _ => rfl⟩
    rw [mapGet_hUD_self, hu]
    rfl
  · next hfalse =>
    have hf : strTruthy user.partnerId = false := by
      cases hb : strTruthy user.partnerId with
      | false => rfl
      | true => exact absurd hb hfalse
    exact ⟨user, hu, fun hok => SessionOK_partnerId_none hok hf⟩

theorem UsersOK_hFM {st : St} (ws : Nat) (uid : String) (coin : Bool)
    (hnd : NodupKeys st) (h : UsersOK st) :
    UsersOK (WS.handleFindMatch st ws uid coin) := by
  cases hu : mapGet st.users uid with
  | none => simp only [WS.handleFindMatch, hu]; exact h
  | some user =>
    simp only [WS.handleFindMatch, hu]
    obtain ⟨u₁, hlook, hpn⟩ := mapGet_maybeDP_self ws uid hu
    exact UsersOK_matchOrWait ws uid coin
      (UsersOK_enqueue uid (NodupKeys_maybeDP ws uid user hnd) hlook
        (hpn (h _ (mapGet_mem hu)).2) (UsersOK_maybeDP ws uid user h))

theorem NodupKeys_hFM {st : St} (ws : Nat) (uid : String) (coin : Bool)
    (hnd : NodupKeys st) : NodupKeys (WS.handleFindMatch st ws uid coin) := by
  cases hu : mapGet st.users uid with
  | none => simp only [WS.handleFindMatch, hu]; exact hnd
  | some user =>
    simp only [WS.handleFindMatch, hu]
    exact NodupKeys_matchOrWait ws uid coin
      (NodupKeys_enqueue uid (NodupKeys_maybeDP ws uid user hnd))

theorem PoolOK_hFM {st : St} (ws : Nat) (uid : String) (coin : Bool)
    (h : PoolOK st) : PoolOK (WS.handleFindMatch st ws uid coin) := by
  cases hu : mapGet st.users uid with
  | none => simp only [WS.handleFindMatch, hu]; exact h
  | some user =>
    simp only [WS.handleFindMatch, hu]
    obtain ⟨u₁, hlook, _⟩ := mapGet_maybeDP_self ws uid hu
    exact PoolOK_matchOrWait ws uid coin
      (PoolOK_enqueue uid hlook (PoolOK_maybeDP ws uid user h))

theorem users_registerUser (st : St) (ws : Nat) (uid : String) (now : Nat) :
    (WS.registerUser st ws uid now).users =
      mapSet st.users uid ⟨ws, Status.idle, none, now⟩ := by
  cases hu : mapGet st.users uid with
  | none => simp only [WS.registerUser, hu]
  | some ex =>
    simp only [WS.registerUser, hu]
    split <;> rfl

theorem pool_registerUser_some {st : St} {uid : String} {ex : Session}
    (ws : Nat) (now : Nat) (hu : mapGet st.users uid = some ex) :
    (WS.registerUser st ws uid now).waitingUsers =
      setDelete st.waitingUsers uid := by
  simp only [WS.registerUser, hu]
  split <;> rfl

theorem pool_registerUser_none {st : St} {uid : String} (ws : Nat) (now : Nat)
    (hu : mapGet st.users uid = none) :
    (WS.registerUser st ws uid now).waitingUsers = st.waitingUsers := by
  simp only [WS.registerUser, hu]

theorem UsersOK_register {st : St} (ws : Nat) (uid : String) (now : Nat)
    (huid : uid ≠ "") (h : UsersOK st) :
    UsersOK (WS.registerUser st ws uid now) := by
  intro e he
  rw [users_registerUser] at he
  rcases mem_mapSet he with he' | he'
  · subst he'
    refine ⟨huid, ?_, ?_⟩
    · simp
    · simp
  · exact h e he'

theorem NodupKeys_register {st : St} (ws : Nat) (uid : String) (now : Nat)
    (h : NodupKeys st) : NodupKeys (WS.registerUser st ws uid now) := by
  unfold NodupKeys
  rw [users_registerUser]
  cases hu : mapGet st.users uid with
  | some ex =>
    rw [keys_mapSet_of_some _ hu]
    exact h
  | none =>
    rw [keys_mapSet_of_none _ hu]
    have hni : uid ∉ st.users.map Prod.fst := not_mem_keys_of_mapGet_none hu
    rw [List.nodup_append]
    exact ⟨h, List.nodup_singleton _,
      fun a ha hb => hni ((List.mem_singleton.1 hb) ▸ ha)⟩

theorem PoolOK_register {st : St} (ws : Nat) (uid : String) (now : Nat)
    (h : PoolOK st) : PoolOK (WS.registerUser st ws uid now) := by
  cases hu : mapGet st.users uid with
  | some ex =>
    intro id hid
    rw [pool_registerUser_some ws now hu] at hid
    obtain ⟨hid', hne⟩ := mem_setDelete hid
    obtain ⟨s, hs, hstat⟩ := h id hid'
    refine ⟨s, ?_, hstat⟩
    rw [users_registerUser, mapGet_mapSet, if_neg hne]
    exact hs
  | none =>
    intro id hid
    rw [pool_registerUser_none ws now hu] at hid
    obtain ⟨s, hs, hstat⟩ := h id hid
    have hne : id ≠ uid := by
      intro he
      rw [he, hu] at hs
      cases hs
    refine ⟨s, ?_, hstat⟩
    rw [users_registerUser, mapGet_mapSet, if_neg hne]
    exact hs

theorem UsersOK_join {st : St} (ws : Nat) (uid : String) (now : Nat)
    (huid : uid ≠ "") (h : UsersOK st) :
    UsersOK (WS.handleUserJoin st ws uid now) := by
  intro e he
  rw [WS.handleUserJoin, users_sendTo, users_broadcast] at he
  exact UsersOK_register ws uid now huid h e he

theorem NodupKeys_join {st : St} (ws : Nat) (uid : String) (now : Nat)
    (h : NodupKeys st) : NodupKeys (WS.handleUserJoin st ws uid now) := by
  unfold NodupKeys
  rw [WS.handleUserJoin, users_sendTo, users_broadcast]
  exact NodupKeys_register ws uid now h

theorem PoolOK_join {st : St} (ws : Nat) (uid : String) (now : Nat)
    (h : PoolOK st) : PoolOK (WS.handleUserJoin st ws uid now) := by
  intro id hid
  rw [WS.handleUserJoin, pool_sendTo, pool_broadcast] at hid
  obtain ⟨s, hs, hstat⟩ := PoolOK_register ws uid now h id hid
  refine ⟨s, ?_, hstat⟩
  rw [WS.handleUserJoin, users_sendTo, users_broadcast]
  exact hs

theorem users_hSM (st : St) (ws : Nat) (payload : List (String × String)) :
    (WS.handleSignalingMessage st ws payload).users = st.users := by
  unfold WS.handleSignalingMessage
  cases (match mapGet payload "to" with
         | some t => mapGet st.users t
         | none => none : Option Session) <;> rfl

theorem pool_hSM (st : St) (ws : Nat) (payload : List (String × String)) :
    (WS.handleSignalingMessage st ws payload).waitingUsers = st.waitingUsers := by
  unfold WS.handleSignalingMessage
  cases (match mapGet payload "to" with
         | some t => mapGet st.users t
         | none => none : Option Session) <;> rfl

theorem UsersOK_hD {st : St} (ws : Nat) (h : UsersOK st) :
    UsersOK (WS.handleDisconnection st ws) := by
  cases hw : mapGet st.wsUser ws with
  | none => simp only [WS.handleDisconnection, hw]; exact h
  | some uid =>
    cases hu : mapGet st.users uid with
    | none => simp only [WS.handleDisconnection, hw, hu]; exact h
    | some user =>
      simp only [WS.handleDisconnection, hw, hu]
      intro e he
      rw [users_broadcast] at he
      exact UsersOK_maybeDP ws uid user h e (mem_mapDelete he).1

theorem NodupKeys_hD {st : St} (ws : Nat) (h : NodupKeys st) :
    NodupKeys (WS.handleDisconnection st ws) := by
  cases hw : mapGet st.wsUser ws with
  | none => simp only [WS.handleDisconnection, hw]; exact h
  | some uid =>
    cases hu : mapGet st.users uid with
    | none => simp only [WS.handleDisconnection, hw, hu]; exact h
    | some user =>
      simp only [WS.handleDisconnection, hw, hu]
      show ((mapDelete (WS.maybeDisconnectPartner st ws uid user).users uid).map
        Prod.fst).Nodup
      exact List.Nodup.sublist ((sublist_mapDelete _ _).map Prod.fst)
        (NodupKeys_maybeDP ws uid user h)

theorem PoolOK_hD {st : St} (ws : Nat) (h : PoolOK st) :
    PoolOK (WS.handleDisconnection st ws) := by
  cases hw : mapGet st.wsUser ws with
  | none => simp only [WS.handleDisconnection, hw]; exact h
  | some uid =>
    cases hu : mapGet st.users uid with
    | none => simp only [WS.handleDisconnection, hw, hu]; exact h
    | some user =>
      simp only [WS.handleDisconnection, hw, hu]
      intro id hid
      rw [pool_broadcast] at hid
      obtain ⟨hid', hne⟩ := mem_setDelete hid
      obtain ⟨s, hs, hstat⟩ := PoolOK_maybeDP ws uid user h id hid'
      refine ⟨s, ?_, hstat⟩
      rw [users_broadcast]
      show mapGet (mapDelete (WS.maybeDisconnectPartner st ws uid user).users uid) id
        = some s
      rw [mapGet_mapDelete, if_neg hne]
      exact hs

theorem keys_touchAll (m : List (String × Session)) (ows : List Nat)
    (now : Nat) : (WS.touchAll m ows now).map Prod.fst = m.map Prod.fst := by
  unfold WS.touchAll
  rw [List.map_map]
  congr 1
  funext e
  simp only [Function.comp_apply]
  split <;> rfl

theorem mapGet_touchAll (m : List (String × Session)) (ows : List Nat)
    (now : Nat) (k : String) :
    mapGet (WS.touchAll m ows now) k =
      (mapGet m k).map
        (fun s => if s.ws ∈ ows then { s with lastSeen := now } else s) := by
  induction m with
  | nil => rfl
  | cons p rest ih =>
    obtain ⟨k₀, v₀⟩ := p
    by_cases hc : v₀.ws ∈ ows
    · rw [show WS.touchAll ((k₀, v₀) :: rest) ows now
          = (k₀, { v₀ with lastSeen := now }) :: WS.touchAll rest ows now from by
        simp [WS.touchAll, hc]]
      by_cases h0 : k₀ = k
      · subst h0
        simp [mapGet, hc]
      · simp [mapGet, h0, ih]
    · rw [show WS.touchAll ((k₀, v₀) :: rest) ows now
          = (k₀, v₀) :: WS.touchAll rest ows now from by
        simp [WS.touchAll, hc]]
      by_cases h0 : k₀ = k
      · subst h0
        simp [mapGet, hc]
      · simp [mapGet, h0, ih]

theorem UsersOK_touchAll {st : St} (now : Nat) (h : UsersOK st) :
    UsersOK { st with users := WS.touchAll st.users st.openWs now } := by
  intro e he
  obtain ⟨e₀, he₀, heq⟩ := List.mem_map.1 he
  obtain ⟨hk, hok⟩ := h e₀ he₀
  subst heq
  constructor
  · split <;> exact hk
  · split <;> exact hok

theorem NodupKeys_touchAll {st : St} (now : Nat) (h : NodupKeys st) :
    NodupKeys { st with users := WS.touchAll st.users st.openWs now } := by
  unfold NodupKeys
  rw [keys_touchAll]
  exact h

theorem PoolOK_touchAll {st : St} (now : Nat) (h : PoolOK st) :
    PoolOK { st with users := WS.touchAll st.users st.openWs now } := by
  intro id hid
  obtain ⟨s, hs, hstat⟩ := h id hid
  refine ⟨if s.ws ∈ st.openWs then { s with lastSeen := now } else s, ?_, ?_⟩
  · show mapGet (WS.touchAll st.users st.openWs now) id = _
    rw [mapGet_touchAll, hs]
    rfl
  · split <;> exact hstat

theorem foldl_preserve {σ α : Type} {P : σ → Prop} {f : σ → α → σ}
    (hf : ∀ s a, P s → P (f s a)) :
    ∀ (l : List α) (s : σ), P s → P (l.foldl f s) := by
  intro l
  induction l with
  | nil => intro s hs; exact hs
  | cons a rest ih => intro s hs; exact ih _ (hf s a hs)

theorem UsersOK_cleanup {st : St} (now : Nat) (h : UsersOK st) :
    UsersOK (WS.cleanupConnections st now) := by
  simp only [WS.cleanupConnections]
  have hstep : ∀ (s : St) (uid : String),
      UsersOK s →
      UsersOK (match mapGet s.users uid with
               | some u => WS.handleDisconnection s u.ws
               | none => s) := by
    intro s uid hs
    cases hg : mapGet s.users uid with
    | some u => simp only [hg]; exact UsersOK_hD u.ws hs
    | none => simp only [hg]; exact hs
  have hfold := foldl_preserve hstep
    ((st.users.filter (fun e => !(st.openWs.contains e.2.ws))).map Prod.fst)
    { st with users := WS.touchAll st.users st.openWs now }
    (UsersOK_touchAll now h)
  split
  · exact hfold
  · intro e he
    rw [users_broadcast] at he
    exact hfold e he

theorem NodupKeys_cleanup {st : St} (now : Nat) (h : NodupKeys st) :
    NodupKeys (WS.cleanupConnections st now) := by
  simp only [WS.cleanupConnections]
  have hstep : ∀ (s : St) (uid : String),
      NodupKeys s →
      NodupKeys (match mapGet s.users uid with
                 | some u => WS.handleDisconnection s u.ws
                 | none => s) := by
    intro s uid hs
    cases hg : mapGet s.users uid with
    | some u => simp only [hg]; exact NodupKeys_hD u.ws hs
    | none => simp only [hg]; exact hs
  have hfold := foldl_preserve hstep
    ((st.users.filter (fun e => !(st.openWs.contains e.2.ws))).map Prod.fst)
    { st with users := WS.touchAll st.users st.openWs now }
    (NodupKeys_touchAll now h)
  split
  · exact hfold
  · exact hfold

theorem PoolOK_cleanup {st : St} (now : Nat) (h : PoolOK st) :
    PoolOK (WS.cleanupConnections st now) := by
  simp only [WS.cleanupConnections]
  have hstep : ∀ (s : St) (uid : String),
      PoolOK s →
      PoolOK (match mapGet s.users uid with
              | some u => WS.handleDisconnection s u.ws
              | none => s) := by
    intro s uid hs
    cases hg : mapGet s.users uid with
    | some u => simp only [hg]; exact PoolOK_hD u.ws hs
    | none => simp only [hg]; exact hs
  have hfold := foldl_preserve hstep
    ((st.users.filter (fun e => !(st.openWs.contains e.2.ws))).map Prod.fst)
    { st with users := WS.touchAll st.users st.openWs now }
    (PoolOK_touchAll now h)
  split
  · exact hfold
  · intro id hid
    rw [pool_broadcast] at hid
    obtain ⟨s, hs, hstat⟩ := hfold id hid
    exact ⟨s, by rw [users_broadcast]; exact hs, hstat⟩

/-- `true` unless the event is a `join` carrying the (JS-falsy) empty
string as its `userId` — `websocket.js` registers such an id without
complaint, unlike `part_000` which rejects falsy ids. -/
def joinNonempty : WS.Op → Bool
  | WS.Op.join _ uid _ => uid ≠ ""
  | _ => true

theorem UsersOK_step {st : St} {op : WS.Op} (hq : joinNonempty op = true)
    (hnd : NodupKeys st) (h : UsersOK st) : UsersOK (WS.step st op) := by
  cases op with
  | connect w =>
    intro e he
    rw [WS.step, users_broadcast] at he
    exact h e he
  | join w uid now =>
    have huid : uid ≠ "" := by simpa [joinNonempty] using hq
    exact UsersOK_join w uid now huid h
  | findMatchReq w uid coin => exact UsersOK_hFM w uid coin hnd h
  | signal w payload =>
    intro e he
    rw [WS.step, users_hSM] at he
    exact h e he
  | disconnectMsg w uid mp => exact UsersOK_hUD w uid mp h
  | close w => exact UsersOK_hD w h
  | drop w => exact h
  | cleanup now => exact UsersOK_cleanup now h

theorem NodupKeys_step {st : St} {op : WS.Op} (hnd : NodupKeys st) :
    NodupKeys (WS.step st op) := by
  cases op with
  | connect w =>
    show ((WS.broadcastUserCount _).users.map Prod.fst).Nodup
    rw [users_broadcast]
    exact hnd
  | join w uid now => exact NodupKeys_join w uid now hnd
  | findMatchReq w uid coin => exact NodupKeys_hFM w uid coin hnd
  | signal w payload =>
    show ((WS.handleSignalingMessage _ _ _).users.map Prod.fst).Nodup
    rw [users_hSM]
    exact hnd
  | disconnectMsg w uid mp => exact NodupKeys_hUD w uid mp hnd
  | close w => exact NodupKeys_hD w hnd
  | drop w => exact hnd
  | cleanup now => exact NodupKeys_cleanup now hnd

theorem PoolOK_step {st : St} {op : WS.Op} (h : PoolOK st) :
    PoolOK (WS.step st op) := by
  cases op with
  | connect w =>
    intro id hid
    rw [WS.step, pool_broadcast] at hid
    obtain ⟨s, hs, hstat⟩ := h id hid
    exact ⟨s, by rw [WS.step, users_broadcast]; exact hs, hstat⟩
  | join w uid now => exact PoolOK_join w uid now h
  | findMatchReq w uid coin => exact PoolOK_hFM w uid coin h
  | signal w payload =>
    intro id hid
    rw [WS.step, pool_hSM] at hid
    obtain ⟨s, hs, hstat⟩ := h id hid
    exact ⟨s, by rw [WS.step, users_hSM]; exact hs, hstat⟩
  | disconnectMsg w uid mp => exact PoolOK_hUD w uid mp h
  | close w => exact PoolOK_hD w h
  | drop w => exact h
  | cleanup now => exact PoolOK_cleanup now h

theorem foldl_preserve_all {σ α : Type} {P : σ → Prop} {Q : α → Bool}
    {f : σ → α → σ} (hf : ∀ s a, Q a = true → P s → P (f s a)) :
    ∀ (l : List α), l.all Q = true → ∀ (s : σ), P s → P (l.foldl f s) := by
  intro l
  induction l with
  | nil => intro _ s hs; exact hs
  | cons a rest ih =>
    intro hall s hs
    rw [List.all_cons, Bool.and_eq_true] at hall
    exact ih hall.2 _ (hf s a hall.1 hs)

theorem NodupKeys_UsersOK_run (ops : List WS.Op)
    (h : ops.all joinNonempty = true) :
    NodupKeys (WS.run ops) ∧ UsersOK (WS.run ops) := by
  unfold WS.run
  refine foldl_preserve_all (P := fun st => NodupKeys st ∧ UsersOK st)
    (Q := joinNonempty) ?_ ops h St.init ⟨by simp [NodupKeys, St.init], ?_⟩
  · intro s op hq hs
    exact ⟨NodupKeys_step hs.1, UsersOK_step hq hs.1 hs.2⟩
  · intro e he
    simp [St.init] at he

theorem PoolOK_run (ops : List WS.Op) : PoolOK (WS.run ops) := by
  unfold WS.run
  refine foldl_preserve (P := PoolOK) ?_ ops St.init ?_
  · intro s op hs
    exact PoolOK_step hs
  · intro id hid
    simp [St.init] at hid

theorem outbox_sendTo (st : St) (w : Nat) (m : OutMsg) :
    (sendTo st w m).outbox = st.outbox ++ [(w, m)] := rfl

theorem wsUser_sendTo (st : St) (w : Nat) (m : OutMsg) :
    (sendTo st w m).wsUser = st.wsUser := rfl

theorem openWs_sendTo (st : St) (w : Nat) (m : OutMsg) :
    (sendTo st w m).openWs = st.openWs := rfl

theorem wsUser_broadcast (st : St) :
    (WS.broadcastUserCount st).wsUser = st.wsUser := rfl

theorem openWs_broadcast (st : St) :
    (WS.broadcastUserCount st).openWs = st.openWs := rfl

theorem users_sendUserCount (st : St) :
    (SSE.sendUserCount st).users = st.users := rfl

theorem pool_sendUserCount (st : St) :
    (SSE.sendUserCount st).waitingUsers = st.waitingUsers := rfl

theorem mapUpdate_reset_reset {m : List (String × Session)} (k : String) :
    mapUpdate (mapUpdate m k resetSession) k resetSession =
      mapUpdate m k resetSession :=
  mapUpdate_idem m k resetSession resetSession_idem

theorem jsOr_of_truthy {a : Option String} (b : Option String)
    (h : strTruthy a = true) : jsOr a b = a := by
  unfold jsOr
  rw [h]
  rfl

theorem jsOr_of_falsy {a : Option String} (b : Option String)
    (h : strTruthy a = false) : jsOr a b = b := by
  unfold jsOr
  rw [h]
  rfl

theorem notifyPartner_some_eq (st : St) (p : String) (hpne : p ≠ "") :
    WS.notifyPartner st (some p) =
      (match mapGet st.users p with
       | none => st
       | some partner =>
         sendTo { st with users := mapUpdate st.users p resetSession }
           partner.ws OutMsg.partnerDisconnected) := by
  simp only [WS.notifyPartner]
  rw [if_neg hpne]

/-- Running `handleUserDisconnect` a second time with the same message
leaves `users` exactly as the first run left it. -/
theorem hUD_users_idem (st : St) (ws : Nat) (uid : String)
    (mp : Option String) :
    (WS.handleUserDisconnect (WS.handleUserDisconnect st ws uid mp) ws uid mp).users
      = (WS.handleUserDisconnect st ws uid mp).users := by
  cases hu : mapGet st.users uid with
  | none =>
    have hid : WS.handleUserDisconnect st ws uid mp = st := by
      simp only [WS.handleUserDisconnect, hu]
    simp only [hid]
  | some user =>
    set st' := WS.handleUserDisconnect st ws uid mp with hst'
    have f1 : mapGet st'.users uid = some (resetSession user) := by
      rw [hst', mapGet_hUD_self, hu]
      rfl
    have hUsers : st'.users =
        mapUpdate (WS.notifyPartner st (jsOr mp user.partnerId)).users uid
          resetSession := by
      rw [hst']
      simp only [WS.handleUserDisconnect, hu]
    simp only [WS.handleUserDisconnect, f1]
    show (mapUpdate (WS.notifyPartner st'
      (jsOr mp (resetSession user).partnerId)).users uid resetSession) = st'.users
    have hrp : (resetSession user).partnerId = none := rfl
    rw [hrp]
    cases hmp : strTruthy mp with
    | false =>
      rw [jsOr_of_falsy none hmp]
      show mapUpdate st'.users uid resetSession = st'.users
      rw [hUsers, mapUpdate_reset_reset]
    | true =>
      obtain ⟨p, hp, hpne⟩ := exists_of_strTruthy hmp
      subst hp
      rw [jsOr_of_truthy none hmp]
      rw [jsOr_of_truthy user.partnerId hmp] at hUsers
      by_cases hpu : p = uid
      · subst hpu
        rw [notifyPartner_some_eq st' p hpne]
        simp only [f1]
        show mapUpdate (mapUpdate st'.users p resetSession) p resetSession
          = st'.users
        rw [mapUpdate_reset_reset, hUsers, mapUpdate_reset_reset]
      · have f2 : mapGet st'.users p =
            mapGet (WS.notifyPartner st (some p)).users p := by
          rw [hUsers, mapGet_mapUpdate, if_neg hpu]
        rw [notifyPartner_some_eq st' p hpne]
        cases hsp : mapGet st.users p with
        | none =>
          have hst1 : WS.notifyPartner st (some p) = st := by
            rw [notifyPartner_some_eq st p hpne]
            simp only [hsp]
          have f2n : mapGet st'.users p = none := by
            rw [f2, hst1, hsp]
          simp only [f2n]
          show mapUpdate st'.users uid resetSession = st'.users
          rw [hst1] at hUsers
          rw [hUsers, mapUpdate_reset_reset]
        | some partner =>
          have hst1 : (WS.notifyPartner st (some p)).users =
              mapUpdate st.users p resetSession := by
            rw [notifyPartner_some_eq st p hpne]
            simp only [hsp]
            rfl
          have f2' : mapGet st'.users p = some (resetSession partner) := by
            rw [f2, hst1, mapGet_mapUpdate, if_pos rfl, hsp]
            rfl
          simp only [f2']
          show mapUpdate (mapUpdate st'.users p resetSession) uid resetSession
            = st'.users
          rw [hst1] at hUsers
          rw [hUsers]
          rw [mapUpdate_comm _ uid p _ _ (fun hc => hpu hc.symm)]
          simp only [mapUpdate_reset_reset]

theorem wsUser_maybeDP (st : St) (ws : Nat) (uid : String) (user : Session) :
    (WS.maybeDisconnectPartner st ws uid user).wsUser = st.wsUser := by
  unfold WS.maybeDisconnectPartner
  split
  · exact wsUser_hUD st ws uid user.partnerId
  · rfl

/-- Running `handleDisconnection` a second time for the same socket is a
complete no-op: the session is gone, so the second run returns the state
unchanged. -/
theorem hD_idem (st : St) (ws : Nat) :
    WS.handleDisconnection (WS.handleDisconnection st ws) ws =
      WS.handleDisconnection st ws := by
  cases hw : mapGet st.wsUser ws with
  | none =>
    have hid : WS.handleDisconnection st ws = st := by
      simp only [WS.handleDisconnection, hw]
    simp only [hid]
  | some uid =>
    cases hu : mapGet st.users uid with
    | none =>
      have hid : WS.handleDisconnection st ws = st := by
        simp only [WS.handleDisconnection, hw, hu]
      simp only [hid]
    | some user =>
      set st' := WS.handleDisconnection st ws with hst'
      have hws' : st'.wsUser = st.wsUser := by
        rw [hst']
        simp only [WS.handleDisconnection, hw, hu, wsUser_broadcast]
        exact wsUser_maybeDP st ws uid user
      have husers' : mapGet st'.users uid = none := by
        rw [hst']
        simp only [WS.handleDisconnection, hw, hu, users_broadcast]
        show mapGet (mapDelete (WS.maybeDisconnectPartner st ws uid user).users uid)
          uid = none
        rw [mapGet_mapDelete, if_pos rfl]
      have hw2 : mapGet st'.wsUser ws = some uid := by
        rw [hws']
        exact hw
      simp only [WS.handleDisconnection, hw2, husers']

theorem mapGet_sseHUDI_self (st : St) (uid : String) :
    mapGet (SSE.handleUserDisconnectInternal st uid).users uid =
      (mapGet st.users uid).map resetSession := by
  cases hu : mapGet st.users uid with
  | none => simp only [SSE.handleUserDisconnectInternal, hu]; rfl
  | some user =>
    simp only [SSE.handleUserDisconnectInternal, hu, users_sendUserCount]
    show mapGet (mapUpdate (WS.notifyPartner st user.partnerId).users uid
      resetSession) uid = _
    rw [mapGet_mapUpdate, if_pos rfl]
    rcases mapGet_users_notifyPartner_map st user.partnerId uid with hnp | hnp
    · rw [hnp, hu]
    · rw [hnp, hu]
      simp [resetSession_idem]

/-- Running the SSE partial teardown a second time leaves `users` as the
first run left it. -/
theorem sseHUDI_users_idem (st : St) (uid : String) :
    (SSE.handleUserDisconnectInternal (SSE.handleUserDisconnectInternal st uid)
      uid).users = (SSE.handleUserDisconnectInternal st uid).users := by
  cases hu : mapGet st.users uid with
  | none =>
    have hid : SSE.handleUserDisconnectInternal st uid = st := by
      simp only [SSE.handleUserDisconnectInternal, hu]
    simp only [hid]
  | some user =>
    set st' := SSE.handleUserDisconnectInternal st uid with hst'
    have f1 : mapGet st'.users uid = some (resetSession user) := by
      rw [hst', mapGet_sseHUDI_self, hu]
      rfl
    have hUsers : st'.users =
        mapUpdate (WS.notifyPartner st user.partnerId).users uid
          resetSession := by
      rw [hst']
      simp only [SSE.handleUserDisconnectInternal, hu, users_sendUserCount]
    simp only [SSE.handleUserDisconnectInternal, f1, users_sendUserCount]
    show mapUpdate (WS.notifyPartner st' (resetSession user).partnerId).users uid
      resetSession = st'.users
    show mapUpdate st'.users uid resetSession = st'.users
    rw [hUsers, mapUpdate_reset_reset]

/-- Running the SSE partial teardown a second time leaves the waiting set
as the first run left it. -/
theorem sseHUDI_pool_idem (st : St) (uid : String) :
    (SSE.handleUserDisconnectInternal (SSE.handleUserDisconnectInternal st uid)
      uid).waitingUsers = (SSE.handleUserDisconnectInternal st uid).waitingUsers := by
  cases hu : mapGet st.users uid with
  | none =>
    have hid : SSE.handleUserDisconnectInternal st uid = st := by
      simp only [SSE.handleUserDisconnectInternal, hu]
    simp only [hid]
  | some user =>
    set st' := SSE.handleUserDisconnectInternal st uid with hst'
    have f1 : mapGet st'.users uid = some (resetSession user) := by
      rw [hst', mapGet_sseHUDI_self, hu]
      rfl
    have hPool : st'.waitingUsers = setDelete st.waitingUsers uid := by
      rw [hst']
      simp only [SSE.handleUserDisconnectInternal, hu, pool_sendUserCount]
      rw [pool_notifyPartner]
    simp only [SSE.handleUserDisconnectInternal, f1, pool_sendUserCount]
    show setDelete (WS.notifyPartner st' (resetSession user).partnerId).waitingUsers
      uid = st'.waitingUsers
    show setDelete st'.waitingUsers uid = st'.waitingUsers
    rw [hPool, setDelete_idem]

/-- Running `handleUserDisconnect` a second time with the same message
leaves the waiting set exactly as the first run left it. -/
theorem hUD_pool_idem (st : St) (ws : Nat) (uid : String)
    (mp : Option String) :
    (WS.handleUserDisconnect (WS.handleUserDisconnect st ws uid mp) ws uid
      mp).waitingUsers = (WS.handleUserDisconnect st ws uid mp).waitingUsers := by
  cases hu : mapGet st.users uid with
  | none =>
    have hid : WS.handleUserDisconnect st ws uid mp = st := by
      simp only [WS.handleUserDisconnect, hu]
    simp only [hid]
  | some user =>
    set st' := WS.handleUserDisconnect st ws uid mp with hst'
    have f1 : mapGet st'.users uid = some (resetSession user) := by
      rw [hst', mapGet_hUD_self, hu]
      rfl
    have hPool : st'.waitingUsers = setDelete st.waitingUsers uid := by
      rw [hst']
      simp only [WS.handleUserDisconnect, hu]
      rw [pool_notifyPartner]
    simp only [WS.handleUserDisconnect, f1]
    show setDelete (WS.notifyPartner st'
      (jsOr mp (resetSession user).partnerId)).waitingUsers uid = st'.waitingUsers
    rw [pool_notifyPartner, hPool, setDelete_idem]

theorem find?_first {α : Type} (p : α → Bool) :
    ∀ (l : List α) (a : α), l.find? p = some a →
      ∃ pre post, l = pre ++ a :: post ∧ ∀ x ∈ pre, p x = false := by
  intro l
  induction l with
  | nil => intro a h; simp [List.find?] at h
  | cons b rest ih =>
    intro a h
    cases hb : p b with
    | true =>
      simp only [List.find?, hb] at h
      obtain rfl : b = a := Option.some.inj h
      exact ⟨[], rest, rfl, by intro x hx; simp at hx⟩
    | false =>
      simp only [List.find?, hb] at h
      obtain ⟨pre, post, hl, hpre⟩ := ih a h
      refine ⟨b :: pre, post, by rw [hl]; rfl, ?_⟩
      intro x hx
      rcases List.mem_cons.1 hx with hx | hx
      · subst hx; exact hb
      · exact hpre x hx

theorem mapGet_pickFields_not_mem (d : List (String × String)) :
    ∀ (names : List String) (k : String), k ∉ names →
      mapGet (names.filterMap
        (fun n => (mapGet d n).map (fun v => (n, v)))) k = none := by
  intro names
  induction names with
  | nil => intro k _; rfl
  | cons n rest ih =>
    intro k hk
    have hkn : n ≠ k := fun h => hk (by simp [h])
    have hkr : k ∉ rest := fun h => hk (by simp [h])
    rw [List.filterMap_cons]
    cases hn : mapGet d n with
    | none => simp only [hn, Option.map_none']; exact ih k hkr
    | some v =>
      simp only [hn, Option.map_some']
      show mapGet ((n, v) :: _) k = none
      simp only [mapGet, if_neg hkn]
      exact ih k hkr

theorem mapGet_pickFields_mem (d : List (String × String)) :
    ∀ (names : List String) (k : String), names.Nodup → k ∈ names →
      mapGet (names.filterMap
        (fun n => (mapGet d n).map (fun v => (n, v)))) k = mapGet d k := by
  intro names
  induction names with
  | nil => intro k _ hk; cases hk
  | cons n rest ih =>
    intro k hnd hk
    rw [List.nodup_cons] at hnd
    rw [List.filterMap_cons]
    rcases List.mem_cons.1 hk with hk' | hk'
    · subst hk'
      cases hn : mapGet d k with
      | none => simp only [hn, Option.map_none']; exact mapGet_pickFields_not_mem d rest k hnd.1
      | some v =>
        simp only [hn, Option.map_some']
        show mapGet ((k, v) :: _) k = some v
        simp [mapGet]
    · have hnk : n ≠ k := fun h => hnd.1 (h ▸ hk')
      cases hn : mapGet d n with
      | none => simp only [hn, Option.map_none']; exact ih k hnd.2 hk'
      | some v =>
        simp only [hn, Option.map_some']
        show mapGet ((n, v) :: _) k = mapGet d k
        simp only [mapGet, if_neg hnk]
        exact ih k hnd.2 hk'

/-- Event sequence exhibiting the C1 counterexample: `A` and `B` get
matched, then `A` re-joins on a new socket. -/
def c1trace : List WS.Op :=
  [WS.Op.connect 1, WS.Op.join 1 "A" 0, WS.Op.connect 2, WS.Op.join 2 "B" 0,
   WS.Op.findMatchReq 1 "A" true, WS.Op.findMatchReq 2 "B" false,
   WS.Op.connect 3, WS.Op.join 3 "A" 1]

/-- C1, counterexample: after join A, join B, find-match A, find-match B,
re-join A (same id, new socket) — all legal operations — the registered
session "B" still has status Matched with partnerId "A", while the
registered session "A" is Idle with no partner.  The asymmetry is not
transient teardown state: it persists while both ends remain registered,
so the claim's symmetry clause is false on the code. -/
theorem c1_counterexample :
    symCheck (WS.run c1trace) = false ∧
    mapGet (WS.run c1trace).users "B" =
      some ⟨2, Status.matched, some "A", 0⟩ ∧
    mapGet (WS.run c1trace).users "A" =
      some ⟨3, Status.idle, none, 1⟩ := by
  decide

/-- C1, amended: after every operation of a trace whose `join` messages
all carry a non-empty userId, every registered session satisfies
`status == Matched` iff `partnerId != null`; the symmetric back-pointer
clause is dropped — re-registering a matched id (or a `disconnect`
naming a third party, see C10) resets one side while the other keeps a
dangling Matched pointer, as the counterexample shows. -/
theorem c1_amended (ops : List WS.Op) (h : ops.all joinNonempty = true) :
    ∀ e ∈ (WS.run ops).users,
      (e.2.status = Status.matched ↔ e.2.partnerId ≠ none) :=
  fun e he => ((NodupKeys_UsersOK_run ops h).2 e he).2.1

/-- Witness for C1: the amended invariant evaluated on the concrete
counterexample trace itself. -/
theorem c1_amended_witness :
    c1trace.all joinNonempty = true ∧
    ∀ e ∈ (WS.run c1trace).users,
      (e.2.status = Status.matched ↔ e.2.partnerId ≠ none) :=
  ⟨by decide, c1_amended c1trace (by decide)⟩

/-- Event sequence exhibiting the C2 counterexample: `A` waits, then `C`
sends a `disconnect` whose message-supplied `partnerId` names `A`. -/
def c2trace : List WS.Op :=
  [WS.Op.connect 1, WS.Op.join 1 "A" 0, WS.Op.connect 2, WS.Op.join 2 "C" 0,
   WS.Op.findMatchReq 1 "A" true, WS.Op.disconnectMsg 2 "C" (some "A")]

/-- C2, counterexample: after `A` starts waiting and `C` sends
`disconnect` with `partnerId: "A"`, the handler resets `A` to Idle but
leaves it in the Waiting Pool, so "every id in the Waiting Pool has
status Waiting" is false on the code. -/
theorem c2_counterexample :
    poolWaitingCheck (WS.run c2trace) = false ∧
    (WS.run c2trace).waitingUsers = ["A"] ∧
    mapGet (WS.run c2trace).users "A" =
      some ⟨1, Status.idle, none, 0⟩ := by
  decide

/-- C2, amended: after every operation, every id in the Waiting Pool has
a registered session, and that session is never Matched (so the pool and
Matched status stay mutually exclusive); its status however can be Idle
rather than Waiting, after a `disconnect` message names a waiting third
party as `partnerId`. -/
theorem c2_amended (ops : List WS.Op) :
    ∀ id ∈ (WS.run ops).waitingUsers,
      ∃ s, mapGet (WS.run ops).users id = some s ∧
        s.status ≠ Status.matched :=
  PoolOK_run ops

/-- Witness for C2: the amended invariant evaluated at the waiting id
"A" of the concrete counterexample trace. -/
theorem c2_amended_witness :
    "A" ∈ (WS.run c2trace).waitingUsers ∧
    ∃ s, mapGet (WS.run c2trace).users "A" = some s ∧
      s.status ≠ Status.matched :=
  ⟨by decide, c2_amended c2trace "A" (by decide)⟩

/-- Event sequence exhibiting the C3 counterexample: `B` enqueues as a
waiter, then `B`'s socket dies at transport level (no close event
dispatched yet). -/
def c3trace : List WS.Op :=
  [WS.Op.connect 1, WS.Op.join 1 "A" 0, WS.Op.connect 2, WS.Op.join 2 "B" 0,
   WS.Op.findMatchReq 2 "B" true, WS.Op.drop 2]

/-- C3, counterexample: with `B` waiting and `B`'s socket no longer open,
the `websocket.js` scan still selects `B` for requester `A` — the claim's
"a candidate with a non-open connection is never selected" is false for
the `websocket.js` `findMatch`, which (unlike the standalone server's)
performs no `readyState` check. -/
theorem c3_counterexample :
    WS.findMatch (WS.run c3trace) "A" = some "B" ∧
    mapGet (WS.run c3trace).users "B" =
      some ⟨2, Status.waiting, none, 0⟩ ∧
    (WS.run c3trace).openWs.contains 2 = false := by
  decide

/-- C3, amended: both scans return the first waiting-pool member other
than the requester whose session still has status Waiting (so a lone
waiting id never matches itself); only the standalone server's scan
additionally requires the candidate's socket to be open — `websocket.js`
selects a candidate regardless of connection liveness. -/
theorem c3_amended (st : St) (uid m : String) :
    (WS.findMatch st uid = some m →
      m ≠ uid ∧
      (∃ u, mapGet st.users m = some u ∧ u.status = Status.waiting) ∧
      ∃ pre post, st.waitingUsers = pre ++ m :: post ∧
        ∀ w ∈ pre, ¬(w ≠ uid ∧ ∃ u, mapGet st.users w = some u ∧
          u.status = Status.waiting))
    ∧ (Server.findMatch st uid = some m →
      m ≠ uid ∧ ∃ u, mapGet st.users m = some u ∧
        u.status = Status.waiting ∧ st.openWs.contains u.ws = true)
    ∧ (st.waitingUsers = [uid] →
        WS.findMatch st uid = none ∧ Server.findMatch st uid = none) := by
  refine ⟨?_, ?_, ?_⟩
  · intro hf
    unfold WS.findMatch at hf
    have hpm := List.find?_some hf
    rw [Bool.and_eq_true] at hpm
    have hne : m ≠ uid := of_decide_eq_true hpm.1
    have h2 := hpm.2
    cases hg : mapGet st.users m with
    | none => rw [hg] at h2; cases h2
    | some u =>
      rw [hg] at h2
      have hst : u.status = Status.waiting := of_decide_eq_true h2
      obtain ⟨pre, post, hl, hpre⟩ := find?_first _ _ _ hf
      refine ⟨hne, ⟨u, rfl, hst⟩, pre, post, hl, ?_⟩
      rintro w hw ⟨hwne, u', hu', hst'⟩
      have : (decide (w ≠ uid) &&
          (match mapGet st.users w with
           | some u => decide (u.status = Status.waiting)
           | none => false)) = true := by
        rw [Bool.and_eq_true]
        refine ⟨decide_eq_true hwne, ?_⟩
        rw [hu']
        exact decide_eq_true hst'
      rw [hpre w hw] at this
      cases this
  · intro hf
    unfold Server.findMatch at hf
    have hpm := List.find?_some hf
    rw [Bool.and_eq_true] at hpm
    have hne : m ≠ uid := of_decide_eq_true hpm.1
    have h2 := hpm.2
    cases hg : mapGet st.users m with
    | none => rw [hg] at h2; cases h2
    | some u =>
      rw [hg] at h2
      rw [Bool.and_eq_true] at h2
      exact ⟨hne, u, rfl, of_decide_eq_true h2.1, h2.2⟩
  · intro hpool
    constructor
    · unfold WS.findMatch
      rw [hpool]
      simp [List.find?]
    · unfold Server.findMatch
      rw [hpool]
      simp [List.find?]

/-- Witness for C3: the amended characterization applied at the concrete
state of the counterexample trace, where the scan returns `B` for
requester `A`. -/
theorem c3_amended_witness :
    WS.findMatch (WS.run c3trace) "A" = some "B" ∧
    ("B" ≠ "A" ∧
      (∃ u, mapGet (WS.run c3trace).users "B" = some u ∧
        u.status = Status.waiting) ∧
      ∃ pre post, (WS.run c3trace).waitingUsers = pre ++ "B" :: post ∧
        ∀ w ∈ pre, ¬(w ≠ "A" ∧ ∃ u, mapGet (WS.run c3trace).users w = some u ∧
          u.status = Status.waiting)) :=
  ⟨by decide, (c3_amended (WS.run c3trace) "A" "B").1 (by decide)⟩

/-- C4: when `createMatch` pairs two registered users, both ids leave the
waiting set, both sessions become Matched pointing at each other, and the
two `matched` messages pushed to their sockets carry complementary
`isInitiator` flags — the first user gets the coin-flip value, the second
its negation, so exactly one of the two flags is true. -/
theorem c4_createMatch_pairs (st : St) (a b : String) (coin : Bool)
    (ua ub : Session) (ha : mapGet st.users a = some ua)
    (hb : mapGet st.users b = some ub) (hab : a ≠ b) :
    mapGet (WS.createMatch st a b coin).users a =
      some { ua with status := Status.matched, partnerId := some b } ∧
    mapGet (WS.createMatch st a b coin).users b =
      some { ub with status := Status.matched, partnerId := some a } ∧
    a ∉ (WS.createMatch st a b coin).waitingUsers ∧
    b ∉ (WS.createMatch st a b coin).waitingUsers ∧
    (WS.createMatch st a b coin).outbox =
      st.outbox ++ [(ua.ws, OutMsg.matchedMsg b coin),
                    (ub.ws, OutMsg.matchedMsg a (!coin))] ∧
    ((coin = true ∧ (!coin) = false) ∨ (coin = false ∧ (!coin) = true)) := by
  refine ⟨?_, ?_, ?_, ?_, ?_, ?_⟩
  · simp only [WS.createMatch, ha, hb]
    show mapGet (mapUpdate (mapUpdate st.users a (WS.matchWith b)) b
      (WS.matchWith a)) a = _
    rw [mapGet_mapUpdate, if_neg hab, mapGet_mapUpdate, if_pos rfl, ha]
    rfl
  · simp only [WS.createMatch, ha, hb]
    show mapGet (mapUpdate (mapUpdate st.users a (WS.matchWith b)) b
      (WS.matchWith a)) b = _
    rw [mapGet_mapUpdate, if_pos rfl, mapGet_mapUpdate, if_neg (Ne.symm hab), hb]
    rfl
  · simp only [WS.createMatch, ha, hb]
    intro hmem
    exact (mem_setDelete (mem_setDelete hmem).1).2 rfl
  · simp only [WS.createMatch, ha, hb]
    intro hmem
    exact (mem_setDelete hmem).2 rfl
  · simp only [WS.createMatch, ha, hb]
    rw [outbox_sendTo, outbox_sendTo, List.append_assoc]
    rfl
  · cases coin
    · exact Or.inr ⟨rfl, rfl⟩
    · exact Or.inl ⟨rfl, rfl⟩

/-- Event sequence reaching a state with both `A` and `B` registered. -/
def c4trace : List WS.Op :=
  [WS.Op.connect 1, WS.Op.join 1 "A" 0, WS.Op.connect 2, WS.Op.join 2 "B" 0]

/-- Witness for C4: match formation between `A` and `B` evaluated on a
concrete reachable state, initiator coin `true`. -/
theorem c4_witness :
    mapGet (WS.run c4trace).users "A" = some ⟨1, Status.idle, none, 0⟩ ∧
    mapGet (WS.run c4trace).users "B" = some ⟨2, Status.idle, none, 0⟩ ∧
    ("A" : String) ≠ "B" ∧
    (mapGet (WS.createMatch (WS.run c4trace) "A" "B" true).users "A" =
      some ⟨1, Status.matched, some "B", 0⟩ ∧
     mapGet (WS.createMatch (WS.run c4trace) "A" "B" true).users "B" =
      some ⟨2, Status.matched, some "A", 0⟩ ∧
     "A" ∉ (WS.createMatch (WS.run c4trace) "A" "B" true).waitingUsers ∧
     "B" ∉ (WS.createMatch (WS.run c4trace) "A" "B" true).waitingUsers ∧
     (WS.createMatch (WS.run c4trace) "A" "B" true).outbox =
       (WS.run c4trace).outbox ++ [(1, OutMsg.matchedMsg "B" true),
                                   (2, OutMsg.matchedMsg "A" (!true))] ∧
     ((true = true ∧ (!true) = false) ∨ (true = false ∧ (!true) = true))) :=
  ⟨by decide, by decide, by decide,
    c4_createMatch_pairs (WS.run c4trace) "A" "B" true
      ⟨1, Status.idle, none, 0⟩ ⟨2, Status.idle, none, 0⟩
      (by decide) (by decide) (by decide)⟩

theorem wsUser_hSM (st : St) (ws : Nat) (payload : List (String × String)) :
    (WS.handleSignalingMessage st ws payload).wsUser = st.wsUser := by
  unfold WS.handleSignalingMessage
  cases (match mapGet payload "to" with
         | some t => mapGet st.users t
         | none => none : Option Session) <;> rfl

theorem openWs_hSM (st : St) (ws : Nat) (payload : List (String × String)) :
    (WS.handleSignalingMessage st ws payload).openWs = st.openWs := by
  unfold WS.handleSignalingMessage
  cases (match mapGet payload "to" with
         | some t => mapGet st.users t
         | none => none : Option Session) <;> rfl

theorem serverHSM_sendTo_or_id (st : St) (ws : Nat)
    (payload : List (String × String)) :
    Server.handleSignalingMessage st ws payload = st ∨
    ∃ w m, Server.handleSignalingMessage st ws payload = sendTo st w m := by
  cases hto : mapGet payload "to" with
  | none =>
    simp only [Server.handleSignalingMessage, hto, Server.safeWSend]
    split
    · exact Or.inr ⟨_, _, rfl⟩
    · exact Or.inl rfl
  | some t =>
    by_cases ht : t = ""
    · simp only [Server.handleSignalingMessage, hto, if_pos ht, Server.safeWSend]
      split
      · exact Or.inr ⟨_, _, rfl⟩
      · exact Or.inl rfl
    · simp only [Server.handleSignalingMessage, hto, if_neg ht]
      cases hu : mapGet st.users t with
      | none =>
        simp only [Server.safeWSend]
        split
        · exact Or.inr ⟨_, _, rfl⟩
        · exact Or.inl rfl
      | some target =>
        by_cases hw : target.ws ∈ st.openWs
        · simp only [if_pos hw, Server.safeWSend]
          exact Or.inr ⟨_, _, rfl⟩
        · simp only [if_neg hw, Server.safeWSend]
          split
          · exact Or.inr ⟨_, _, rfl⟩
          · exact Or.inl rfl

theorem safeWSend_open {st : St} {w : Nat} (m : OutMsg)
    (h : w ∈ st.openWs) : Server.safeWSend st w m = sendTo st w m := by
  unfold Server.safeWSend
  rw [if_pos h]

/-- C5, amended: relaying never mutates registry, pool, socket ownership
or liveness state, and the error goes to the sender alone.  But the two
relays disagree on what "target not found" means: `websocket.js` fails
exactly when `to` is unregistered (a registered target with a dead socket
is still forwarded to — the counterexample), while the standalone server
fails exactly when the target is unregistered or its socket is not open,
matching the claim. -/
theorem c5_amended (st : St) (ws : Nat) (payload : List (String × String)) :
    ((WS.handleSignalingMessage st ws payload).users = st.users ∧
     (WS.handleSignalingMessage st ws payload).waitingUsers = st.waitingUsers ∧
     (WS.handleSignalingMessage st ws payload).wsUser = st.wsUser ∧
     (WS.handleSignalingMessage st ws payload).openWs = st.openWs) ∧
    (∀ t, mapGet payload "to" = some t → mapGet st.users t = none →
      (WS.handleSignalingMessage st ws payload).outbox =
        st.outbox ++ [(ws, OutMsg.errorMsg "Target user not found")]) ∧
    (mapGet payload "to" = none →
      (WS.handleSignalingMessage st ws payload).outbox =
        st.outbox ++ [(ws, OutMsg.errorMsg "Target user not found")]) ∧
    (∀ t u, mapGet payload "to" = some t → mapGet st.users t = some u →
      (WS.handleSignalingMessage st ws payload).outbox =
        st.outbox ++ [(u.ws, OutMsg.forwarded
          (WS.wsForward payload (mapGet st.wsUser ws)))]) ∧
    ((Server.handleSignalingMessage st ws payload).users = st.users ∧
     (Server.handleSignalingMessage st ws payload).waitingUsers = st.waitingUsers) ∧
    (∀ t u, mapGet payload "to" = some t → t ≠ "" →
      mapGet st.users t = some u → u.ws ∉ st.openWs → ws ∈ st.openWs →
      (Server.handleSignalingMessage st ws payload).outbox =
        st.outbox ++ [(ws, OutMsg.errorMsg "Target user not found or not connected")]) ∧
    (∀ t, mapGet payload "to" = some t → t ≠ "" →
      mapGet st.users t = none → ws ∈ st.openWs →
      (Server.handleSignalingMessage st ws payload).outbox =
        st.outbox ++ [(ws, OutMsg.errorMsg "Target user not found or not connected")]) := by
  refine ⟨⟨users_hSM st ws payload, pool_hSM st ws payload,
    wsUser_hSM st ws payload, openWs_hSM st ws payload⟩, ?_, ?_, ?_, ?_, ?_, ?_⟩
  · intro t ht hu
    simp only [WS.handleSignalingMessage, ht, hu]
    rfl
  · intro ht
    simp only [WS.handleSignalingMessage, ht]
    rfl
  · intro t u ht hu
    simp only [WS.handleSignalingMessage, ht, hu]
    rfl
  · rcases serverHSM_sendTo_or_id st ws payload with h | ⟨w, m, h⟩
    · rw [h]
      exact ⟨rfl, rfl⟩
    · rw [h]
      exact ⟨rfl, rfl⟩
  · intro t u ht htne hu hdead hopen
    simp only [Server.handleSignalingMessage, ht, if_neg htne, hu,
      if_neg hdead]
    rw [safeWSend_open _ hopen]
    rfl
  · intro t ht htne hu hopen
    simp only [Server.handleSignalingMessage, ht, if_neg htne, hu]
    rw [safeWSend_open _ hopen]
    rfl

/-- C5, counterexample: on the counterexample trace, `B` is registered
with a dead socket (`readyState` not OPEN); per the claim, relaying to
`B` must fail with `TargetNotFound` — but `websocket.js` forwards the
payload to the dead socket and reports no error to the sender at all. -/
theorem c5_counterexample :
    mapGet (WS.run c3trace).users "B" =
      some ⟨2, Status.waiting, none, 0⟩ ∧
    (WS.run c3trace).openWs.contains 2 = false ∧
    (WS.handleSignalingMessage (WS.run c3trace) 1
      [("type", "offer"), ("to", "B")]).outbox =
      (WS.run c3trace).outbox ++
        [(2, OutMsg.forwarded [("type", "offer"), ("to", "B"), ("from", "A")])] := by
  decide

/-- Witness for C5: the standalone server on the same dead-target state
does report the not-found/not-connected error to the sender only. -/
theorem c5_amended_witness :
    mapGet [(("type" : String), ("offer" : String)), ("to", "B")] "to" = some "B" ∧
    mapGet (WS.run c3trace).users "B" = some ⟨2, Status.waiting, none, 0⟩ ∧
    (2 : Nat) ∉ (WS.run c3trace).openWs ∧
    (1 : Nat) ∈ (WS.run c3trace).openWs ∧
    (Server.handleSignalingMessage (WS.run c3trace) 1
      [("type", "offer"), ("to", "B")]).outbox =
      (WS.run c3trace).outbox ++
        [(1, OutMsg.errorMsg "Target user not found or not connected")] :=
  ⟨by decide, by decide, by decide, by decide,
    (c5_amended (WS.run c3trace) 1 [("type", "offer"), ("to", "B")]).2.2.2.2.2.1
      "B" ⟨2, Status.waiting, none, 0⟩ (by decide) (by decide) (by decide)
      (by decide) (by decide)⟩

/-- The C6 counterexample payload: an `offer` carrying an `sdp` field. -/
def c6payload : List (String × String) :=
  [("type", "offer"), ("to", "B"), ("sdp", "x")]

/-- An SSE state with user `B` stored under response handle 2. -/
def c6state : St :=
  ⟨[("B", ⟨2, Status.idle, none, 0⟩)], [], [], [2], []⟩

/-- C6, counterexample: the SSE relay (`signaling.js` `handleSignalMessage`,
one of the claim's two cited code sites) does not deliver the payload
unchanged — it rebuilds a fixed-field object, so the `sdp` field of the
sender's offer (and the `to` field) are dropped, and no `from` is added
when the client supplied none. -/
theorem c6_counterexample :
    mapGet c6payload "sdp" = some "x" ∧
    (SSE.handleSignalMessage c6state c6payload).outbox =
      [(2, OutMsg.forwarded [("type", "offer")])] ∧
    mapGet [(("type" : String), ("offer" : String))] "sdp" = none := by
  decide

/-- C6, amended: the WebSocket relays deliver the payload unchanged except
that `from` is set to the sender's socket identity (every other key keeps
its value), and never parse or drop payload contents; the SSE relay
instead forwards only the fixed fields `from`/`type`/`offer`/`answer`/
`candidate` (taking `from` from the client payload) and drops every other
field. -/
theorem c6_amended (payload : List (String × String)) (sender : String)
    (st : St) (ws : Nat) (k t : String) (u : Session) :
    (k ≠ "from" →
      mapGet (WS.wsForward payload (some sender)) k = mapGet payload k) ∧
    mapGet (WS.wsForward payload (some sender)) "from" = some sender ∧
    (mapGet payload "to" = some t → mapGet st.users t = some u →
      (WS.handleSignalingMessage st ws payload).outbox =
        st.outbox ++ [(u.ws, OutMsg.forwarded
          (WS.wsForward payload (mapGet st.wsUser ws)))]) ∧
    (k ∈ SSE.signalFieldNames →
      mapGet (SSE.sseForward payload) k = mapGet payload k) ∧
    (k ∉ SSE.signalFieldNames →
      mapGet (SSE.sseForward payload) k = none) := by
  refine ⟨?_, ?_, ?_, ?_, ?_⟩
  · intro hk
    show mapGet (mapSet payload "from" sender) k = mapGet payload k
    rw [mapGet_mapSet, if_neg hk]
  · show mapGet (mapSet payload "from" sender) "from" = some sender
    rw [mapGet_mapSet, if_pos rfl]
  · intro ht hu
    simp only [WS.handleSignalingMessage, ht, hu]
    rfl
  · intro hk
    exact mapGet_pickFields_mem payload SSE.signalFieldNames k (by decide) hk
  · intro hk
    exact mapGet_pickFields_not_mem payload SSE.signalFieldNames k hk

/-- Witness for C6: on the counterexample payload, the WebSocket forward
preserves the `sdp` field while setting `from`. -/
theorem c6_amended_witness :
    ("sdp" : String) ≠ "from" ∧
    mapGet (WS.wsForward c6payload (some "A")) "sdp" = mapGet c6payload "sdp" :=
  ⟨by decide,
    (c6_amended c6payload "A" c6state 1 "sdp" "B"
      ⟨2, Status.idle, none, 0⟩).1 (by decide)⟩

/-- C7: teardown is idempotent.  An immediate second run of the partial
teardown (`handleUserDisconnect`, with the same message) leaves the
registry and the waiting set exactly as the first run left them; a second
run of the full teardown (`handleDisconnection`) returns its input state
unchanged (the session is gone, so the missing-session guard makes it a
no-op); and the SSE partial teardown (`handleUserDisconnectInternal`) is
likewise idempotent on registry and waiting set.  All three functions are
total: a missing session or partner takes a guard branch that changes
nothing, never a failure. -/
theorem c7_teardown_idempotent (st : St) (ws : Nat) (uid : String)
    (mp : Option String) :
    ((WS.handleUserDisconnect (WS.handleUserDisconnect st ws uid mp) ws uid
        mp).users = (WS.handleUserDisconnect st ws uid mp).users ∧
     (WS.handleUserDisconnect (WS.handleUserDisconnect st ws uid mp) ws uid
        mp).waitingUsers = (WS.handleUserDisconnect st ws uid mp).waitingUsers) ∧
    WS.handleDisconnection (WS.handleDisconnection st ws) ws =
      WS.handleDisconnection st ws ∧
    ((SSE.handleUserDisconnectInternal (SSE.handleUserDisconnectInternal st uid)
        uid).users = (SSE.handleUserDisconnectInternal st uid).users ∧
     (SSE.handleUserDisconnectInternal (SSE.handleUserDisconnectInternal st uid)
        uid).waitingUsers = (SSE.handleUserDisconnectInternal st uid).waitingUsers) :=
  ⟨⟨hUD_users_idem st ws uid mp, hUD_pool_idem st ws uid mp⟩,
   hD_idem st ws,
   sseHUDI_users_idem st uid, sseHUDI_pool_idem st uid⟩

theorem openWs_registerUser_some_ne {st : St} {uid : String} {ex : Session}
    (ws : Nat) (now : Nat) (hex : mapGet st.users uid = some ex)
    (hws : ex.ws ≠ ws) :
    (WS.registerUser st ws uid now).openWs = setDelete st.openWs ex.ws := by
  simp only [WS.registerUser, hex, if_pos hws]
  rfl

/-- C8: `handleUserJoin` for an id that is already registered under a
different socket closes the old socket, removes the id from the waiting
set, and leaves exactly one session for the id: the fresh
`{ ws, status: 'idle', partnerId: null, lastSeen: now }` record —
whatever the prior session's status and partner were. -/
theorem c8_reconnect (st : St) (ws : Nat) (uid : String) (now : Nat)
    (ex : Session) (hex : mapGet st.users uid = some ex)
    (hws : ex.ws ≠ ws) :
    mapGet (WS.handleUserJoin st ws uid now).users uid =
      some ⟨ws, Status.idle, none, now⟩ ∧
    uid ∉ (WS.handleUserJoin st ws uid now).waitingUsers ∧
    ex.ws ∉ (WS.handleUserJoin st ws uid now).openWs ∧
    ((st.users.map Prod.fst).count uid = 1 →
      ((WS.handleUserJoin st ws uid now).users.map Prod.fst).count uid = 1) := by
  refine ⟨?_, ?_, ?_, ?_⟩
  · rw [WS.handleUserJoin, users_sendTo, users_broadcast, users_registerUser,
      mapGet_mapSet, if_pos rfl]
  · rw [WS.handleUserJoin, pool_sendTo, pool_broadcast,
      pool_registerUser_some ws now hex]
    intro hmem
    exact (mem_setDelete hmem).2 rfl
  · rw [WS.handleUserJoin, openWs_sendTo, openWs_broadcast,
      openWs_registerUser_some_ne ws now hex hws]
    intro hmem
    exact (mem_setDelete hmem).2 rfl
  · intro hcount
    rw [WS.handleUserJoin, users_sendTo, users_broadcast, users_registerUser,
      keys_mapSet_of_some _ hex]
    exact hcount

/-- Event sequence leaving `A` matched with `B`, for the C8 witness. -/
def c8trace : List WS.Op :=
  [WS.Op.connect 1, WS.Op.join 1 "A" 0, WS.Op.connect 2, WS.Op.join 2 "B" 0,
   WS.Op.findMatchReq 1 "A" true, WS.Op.findMatchReq 2 "B" false]

/-- Witness for C8: `A`, currently Matched on socket 1, re-joins on
socket 3 — the old socket leaves the open set and the one session for
`A` is Idle with no partner. -/
theorem c8_witness :
    mapGet (WS.run c8trace).users "A" =
      some ⟨1, Status.matched, some "B", 0⟩ ∧
    (1 : Nat) ≠ 3 ∧
    (mapGet (WS.handleUserJoin (WS.run c8trace) 3 "A" 5).users "A" =
      some ⟨3, Status.idle, none, 5⟩ ∧
     "A" ∉ (WS.handleUserJoin (WS.run c8trace) 3 "A" 5).waitingUsers ∧
     (1 : Nat) ∉ (WS.handleUserJoin (WS.run c8trace) 3 "A" 5).openWs ∧
     (((WS.run c8trace).users.map Prod.fst).count "A" = 1 →
       ((WS.handleUserJoin (WS.run c8trace) 3 "A" 5).users.map
         Prod.fst).count "A" = 1)) :=
  ⟨by decide, by decide,
   c8_reconnect (WS.run c8trace) 3 "A" 5 ⟨1, Status.matched, some "B", 0⟩
     (by decide) (by decide)⟩

theorem mem_broadcastUserCount {st : St} {e : String × Session}
    (he : e ∈ st.users) (hc : st.openWs.contains e.2.ws = true) :
    (e.2.ws, OutMsg.userCount (WS.userCountFields st)) ∈
      (WS.broadcastUserCount st).outbox := by
  show _ ∈ st.outbox ++ _
  refine List.mem_append.2 (Or.inr ?_)
  exact List.mem_map.2 ⟨e, List.mem_filter.2 ⟨he, hc⟩, rfl⟩

/-- Event sequence for the C9 counterexample: `A` is waiting when `B`
registers, so the join-time broadcast happens with a non-empty waiting
pool. -/
def c9trace : List WS.Op :=
  [WS.Op.connect 1, WS.Op.join 1 "A" 0, WS.Op.findMatchReq 1 "A" true,
   WS.Op.connect 2, WS.Op.join 2 "B" 0]

/-- C9, counterexample: the user-count message that `websocket.js` pushes
on `B`'s registration is `{ type: 'user-count', count: 2 }` — it carries
no `waiting` field at all, although the waiting pool is `["A"]` at that
moment, so "carrying both the registered count and the waiting count" is
false for this implementation. -/
theorem c9_counterexample :
    WS.userCountFields (WS.run c9trace) = [("count", 2)] ∧
    (1, OutMsg.userCount [("count", 2)]) ∈ (WS.run c9trace).outbox ∧
    (WS.run c9trace).waitingUsers = ["A"] ∧
    mapGet (WS.userCountFields (WS.run c9trace)) "waiting" = none := by
  decide

/-- C9, amended: on every registration, and on every full teardown of an
existing session, a `user-count` message is pushed to every registered
session whose socket is open.  In the standalone server and the SSE
variant the message carries both the registered count and the waiting
count, but in `websocket.js` it carries the registered count only — its
`waiting` field is absent. -/
theorem c9_amended (st : St) (ws : Nat) (uid : String) (now : Nat) :
    mapGet (WS.userCountFields st) "count" = some st.users.length ∧
    mapGet (WS.userCountFields st) "waiting" = none ∧
    mapGet (Server.userCountFields st) "count" = some st.users.length ∧
    mapGet (Server.userCountFields st) "waiting" =
      some st.waitingUsers.length ∧
    mapGet (SSE.userCountFields st) "count" = some st.users.length ∧
    mapGet (SSE.userCountFields st) "waiting" =
      some st.waitingUsers.length ∧
    (∀ e ∈ st.users, st.openWs.contains e.2.ws = true →
      (e.2.ws, OutMsg.userCount (WS.userCountFields st)) ∈
        (WS.broadcastUserCount st).outbox) ∧
    (∀ e ∈ (WS.handleUserJoin st ws uid now).users,
      (WS.handleUserJoin st ws uid now).openWs.contains e.2.ws = true →
      (e.2.ws, OutMsg.userCount
          (WS.userCountFields (WS.handleUserJoin st ws uid now))) ∈
        (WS.handleUserJoin st ws uid now).outbox) ∧
    (∀ uid2 user, mapGet st.wsUser ws = some uid2 →
      mapGet st.users uid2 = some user →
      ∀ e ∈ (WS.handleDisconnection st ws).users,
        (WS.handleDisconnection st ws).openWs.contains e.2.ws = true →
        (e.2.ws, OutMsg.userCount
            (WS.userCountFields (WS.handleDisconnection st ws))) ∈
          (WS.handleDisconnection st ws).outbox) := by
  refine ⟨rfl, rfl, rfl, rfl, rfl, rfl, ?_, ?_, ?_⟩
  · intro e he hc
    exact mem_broadcastUserCount he hc
  · intro e he hc
    exact List.mem_append_left _
      (@mem_broadcastUserCount (WS.registerUser st ws uid now) e he hc)
  · intro uid2 user hw hu e he hc
    have hD_eq : WS.handleDisconnection st ws =
        WS.broadcastUserCount
          { WS.maybeDisconnectPartner st ws uid2 user with
            users := mapDelete
              (WS.maybeDisconnectPartner st ws uid2 user).users uid2,
            waitingUsers := setDelete
              (WS.maybeDisconnectPartner st ws uid2 user).waitingUsers uid2 } := by
      simp only [WS.handleDisconnection, hw, hu]
    rw [hD_eq] at he hc ⊢
    exact mem_broadcastUserCount he hc

/-- The registration state for the C9 witness: `A` is waiting and socket
2 has connected, just before `B` joins. -/
def c9pre : List WS.Op :=
  [WS.Op.connect 1, WS.Op.join 1 "A" 0, WS.Op.findMatchReq 1 "A" true,
   WS.Op.connect 2]

/-- Witness for C9: on `B`'s registration, the waiting user `A` (open
socket 1) receives the user-count message. -/
theorem c9_amended_witness :
    ("A", (⟨1, Status.waiting, none, 0⟩ : Session)) ∈
      (WS.handleUserJoin (WS.run c9pre) 2 "B" 0).users ∧
    (WS.handleUserJoin (WS.run c9pre) 2 "B" 0).openWs.contains 1 = true ∧
    (1, OutMsg.userCount
        (WS.userCountFields (WS.handleUserJoin (WS.run c9pre) 2 "B" 0))) ∈
      (WS.handleUserJoin (WS.run c9pre) 2 "B" 0).outbox :=
  ⟨by decide, by decide,
   (c9_amended (WS.run c9pre) 2 "B" 0).2.2.2.2.2.2.2.1
     ("A", ⟨1, Status.waiting, none, 0⟩) (by decide) (by decide)⟩

/-- C10: a `disconnect` message carrying a `partnerId` field naming some
registered session makes `handleUserDisconnect` notify and reset that
named session — `partnerId || user.partnerId` prefers the
message-supplied id — regardless of whether it is actually matched with
the sender, while every other session (the sender's real recorded
partner included) is left untouched. -/
theorem c10_message_partner_preferred (st : St) (ws : Nat) (uid p : String)
    (user partner : Session) (hu : mapGet st.users uid = some user)
    (hp : p ≠ "") (hpu : p ≠ uid)
    (hpart : mapGet st.users p = some partner) :
    mapGet (WS.handleUserDisconnect st ws uid (some p)).users p =
      some { partner with status := Status.idle, partnerId := none } ∧
    (partner.ws, OutMsg.partnerDisconnected) ∈
      (WS.handleUserDisconnect st ws uid (some p)).outbox ∧
    (∀ q s, q ≠ p → q ≠ uid → mapGet st.users q = some s →
      mapGet (WS.handleUserDisconnect st ws uid (some p)).users q = some s) := by
  have hpid : jsOr (some p) user.partnerId = some p :=
    jsOr_of_truthy _ ((strTruthy_some_iff p).2 hp)
  simp only [WS.handleUserDisconnect, hu, hpid]
  have hnp : WS.notifyPartner st (some p) =
      sendTo { st with users := mapUpdate st.users p resetSession }
        partner.ws OutMsg.partnerDisconnected := by
    rw [notifyPartner_some_eq st p hp]
    simp only [hpart]
  rw [hnp]
  refine ⟨?_, ?_, ?_⟩
  · show mapGet (mapUpdate (mapUpdate st.users p resetSession) uid
      resetSession) p = _
    rw [mapGet_mapUpdate, if_neg hpu, mapGet_mapUpdate, if_pos rfl, hpart]
    rfl
  · show _ ∈ st.outbox ++ [(partner.ws, OutMsg.partnerDisconnected)]
    exact List.mem_append.2 (Or.inr (by simp))
  · intro q s hqp hqu hq
    show mapGet (mapUpdate (mapUpdate st.users p resetSession) uid
      resetSession) q = some s
    rw [mapGet_mapUpdate, if_neg hqu, mapGet_mapUpdate, if_neg hqp]
    exact hq

/-- Event sequence for the C10 witness: `A` and `B` matched, `C` idle. -/
def c10trace : List WS.Op :=
  [WS.Op.connect 1, WS.Op.join 1 "A" 0, WS.Op.connect 2, WS.Op.join 2 "B" 0,
   WS.Op.connect 3, WS.Op.join 3 "C" 0,
   WS.Op.findMatchReq 1 "A" true, WS.Op.findMatchReq 2 "B" false]

/-- Witness for C10: `C` (who has no partner) sends `disconnect` with
`partnerId: "A"`; `A` — matched with `B`, not with `C` — is reset to Idle
and notified. -/
theorem c10_witness :
    mapGet (WS.run c10trace).users "C" = some ⟨3, Status.idle, none, 0⟩ ∧
    mapGet (WS.run c10trace).users "A" =
      some ⟨1, Status.matched, some "B", 0⟩ ∧
    (mapGet (WS.handleUserDisconnect (WS.run c10trace) 3 "C"
        (some "A")).users "A" = some ⟨1, Status.idle, none, 0⟩ ∧
     (1, OutMsg.partnerDisconnected) ∈
       (WS.handleUserDisconnect (WS.run c10trace) 3 "C" (some "A")).outbox ∧
     (∀ q s, q ≠ "A" → q ≠ "C" → mapGet (WS.run c10trace).users q = some s →
       mapGet (WS.handleUserDisconnect (WS.run c10trace) 3 "C"
         (some "A")).users q = some s)) :=
  ⟨by decide, by decide,
   c10_message_partner_preferred (WS.run c10trace) 3 "C" "A"
     ⟨3, Status.idle, none, 0⟩ ⟨1, Status.matched, some "B", 0⟩
     (by decide) (by decide) (by decide) (by decide)⟩

end P2P
